import Mathlib

/-!
# FreeRTOS STM32 demos: counting semaphore and simple queue

A shallow embedding of the user code of the two demo programs
(`counting_semaphore/Core/Src/main.c` and `simple_queue/Core/Src/main.c`).

* Every call the user code makes into the HAL or the kernel is recorded, in
  program order, as a `Call` in a log.
* The kernel objects themselves (the counting semaphore and the queue) are
  not part of the two source files; they are modelled from the written
  specification, and each such definition says so.
* A task is a state machine over its program points; one `step` of a task
  executes the code between two consecutive kernel calls.  The lines from the
  read of `resource[indx]` to the cursor update are executed as one step:
  preemption inside them is not part of this model.
* All waits use the infinite timeout, so a blocking kernel call returns only
  when it is served; the branches the source has for a failed send or
  receive are therefore not reached.
* The texts the tasks transmit are rendered from the values; the sizes of the
  local buffers that receive the renderings (`sresource`, `ssemcount`, `str`)
  are stated separately and compared with the number of bytes written.
-/

/-- The "wait for ever" tick count handed to the blocking kernel calls
(`portMAX_DELAY`, a header constant, for 32-bit ticks). -/
def portMAX_DELAY : Nat := 0xFFFFFFFF

/-- The "wait for ever" timeout of the polling HAL calls (`HAL_MAX_DELAY`, a
header constant). -/
def HAL_MAX_DELAY : Nat := 0xFFFFFFFF

/-- The tick conversion `pdMS_TO_TICKS` in its default header form,
`(ms * configTICK_RATE_HZ) / 1000` in 32-bit tick arithmetic.  The header is
not among the source files: the task functions take the conversion as a
parameter, and this is the instance for a given tick rate. -/
def pdMS_TO_TICKS (configTICK_RATE_HZ : Nat) (xTimeInMs : Nat) : Nat :=
  (xTimeInMs * configTICK_RATE_HZ % 2 ^ 32) / 1000

/-- The trigger character `'r'` both receive-complete handlers compare with. -/
def triggerByte : Nat := 114

/-- Base-10 rendering of an `int`, as `itoa (v, buf, 10)` and `%d` produce. -/
def itoa (v : Int) : String := toString v

/-- The number of bytes `itoa` and `sprintf` store for a rendered text: its
characters and the terminating NUL. -/
def bytesWritten (text : String) : Nat := text.length + 1

/-- Calls made by the user code into the HAL and the kernel, with the
arguments that matter to the coordination logic. -/
inductive Call where
  | HAL_UART_Receive_IT (size : Nat)
  | HAL_UART_Transmit (text : String) (size : Nat) (timeout : Nat)
  | xSemaphoreCreateCounting (uxMaxCount uxInitialCount : Nat)
  | xSemaphoreGive
  | xSemaphoreTake (xTicksToWait : Nat)
  | uxSemaphoreGetCount
  | xSemaphoreGiveFromISR
  | portEND_SWITCHING_ISR (xHigherPriorityTaskWoken : Bool)
  | xQueueCreate (uxQueueLength : Nat)
  | xQueueSend (item : Int) (xTicksToWait : Nat)
  | xQueueReceive (xTicksToWait : Nat)
  | xQueueSendToFrontFromISR (item : Int)
  | portYIELD_FROM_ISR (xHigherPriorityTaskWoken : Bool)
  | xTaskCreate (name : String) (usStackDepth : Nat) (pvParameters : Option Int)
      (uxPriority : Nat)
  | vTaskStartScheduler
  | vTaskDelay (xTicksToDelay : Nat)
  deriving DecidableEq, Repr

/-- The timeout (or sleep length) a call is given, for the calls that can wait:
the polling transmit, the blocking kernel calls and the timed sleep.  The
interrupt-driven receive, the `FromISR` kernel calls and the reschedule
requests take no timeout and return at once. -/
def Call.waitArgument : Call → Option Nat
  | .HAL_UART_Transmit _ _ timeout => some timeout
  | .xSemaphoreTake t => some t
  | .xQueueSend _ t => some t
  | .xQueueReceive t => some t
  | .vTaskDelay t => some t
  | _ => none

/-- A call that can wait is one that is handed a timeout. -/
def Call.canWait (c : Call) : Bool := c.waitArgument.isSome

/-- The highest-priority member of a wait-set, the earliest one among equals. -/
def pickWaiter {τ : Type} (prio : τ → Nat) : List τ → Option τ
  | [] => none
  | t :: ts =>
    match pickWaiter prio ts with
    | none => some t
    | some u => if prio t < prio u then some u else some t

/-- The task creations a log contains. -/
def isTaskCreate : Call → Bool
  | .xTaskCreate _ _ _ _ => true
  | _ => false

/-- Startup is halted in a log when it creates no task and does not start the
scheduler. -/
def startupHalted (log : List Call) : Bool :=
  !log.any isTaskCreate && !log.contains Call.vTaskStartScheduler

namespace CountingSemaphore

/-- The four worker tasks created by `main`. -/
inductive Worker where
  | HPT
  | MPT
  | LPT
  | VLPT
  deriving DecidableEq, Repr

/-- The priority `main` passes to `xTaskCreate` for each worker. -/
def Worker.priority : Worker → Nat
  | .HPT => 3
  | .MPT => 2
  | .LPT => 1
  | .VLPT => 0

/-- Modelled from the spec: the Counting Guard of the data model, "integer
count in [0, CAPACITY]" with "a wait-set of blocked task identifiers".  The
kernel's semaphore implementation is not in the two source files. -/
structure CountingGuard where
  capacity : Int
  count : Int
  waiters : List Worker
  deriving DecidableEq, Repr

/-- Modelled from the spec: `create(capacity, initial_count)` gives a guard
with `initial_count` permits available, and "fails (returns a null/invalid
handle) if the underlying allocation fails". -/
def xSemaphoreCreateCounting (allocated : Bool) (uxMaxCount uxInitialCount : Int) :
    Option CountingGuard :=
  if allocated then
    some { capacity := uxMaxCount, count := uxInitialCount, waiters := [] }
  else none

/-- Modelled from the spec: `acquire(guard, timeout)` with the infinite
timeout: "decrements count by 1 on success"; "an acquire with count=0 blocks
the caller until a release occurs".  The result says whether the permit was
granted; a caller that is not granted one joins the wait-set. -/
def xSemaphoreTake (g : CountingGuard) (t : Worker) : CountingGuard × Bool :=
  if 0 < g.count then
    ({ g with count := g.count - 1 }, true)
  else
    ({ g with waiters := if t ∈ g.waiters then g.waiters else g.waiters ++ [t] }, false)

/-- Modelled from the spec: `release(guard)` "increments count by 1, up to
capacity; wakes one blocked waiter if any, waiter selection is
priority-ordered".  The result names the woken waiter, which leaves the
wait-set and has to complete its acquire when it next runs. -/
def xSemaphoreGive (g : CountingGuard) : CountingGuard × Option Worker :=
  let count1 := if g.count < g.capacity then g.count + 1 else g.count
  match pickWaiter Worker.priority g.waiters with
  | none => ({ g with count := count1 }, none)
  | some w => ({ g with count := count1, waiters := g.waiters.erase w }, some w)

/-- Modelled from the spec: `release_from_interrupt(guard)` has the "same
increment effect as `release`" and "returns a flag indicating whether a woken
task has equal or higher priority than the one interrupted".  The flag
variable is only ever set, never cleared, by the call. -/
def xSemaphoreGiveFromISR (g : CountingGuard) (interrupted : Nat) (woken : Bool) :
    CountingGuard × Bool :=
  match xSemaphoreGive g with
  | (g1, none) => (g1, woken)
  | (g1, some w) => (g1, woken || decide (interrupted ≤ w.priority))

/-- Modelled from the spec: `count(guard)`, the "non-blocking read of current
permit count". -/
def uxSemaphoreGetCount (g : CountingGuard) : Int := g.count

/-- The global `int resource[3] = {111,222,333}`. -/
def resource : List Int := [111, 222, 333]

/-- The array access `resource[i]`; `none` outside the array. -/
def readResource (i : Int) : Option Int :=
  if 0 ≤ i then resource[i.toNat]? else none

/-- Program points of a worker.  `seeding n`: `n` of the initial gives are
still to be done; `entering`: at the top of the loop; `acquiring`: about to
call `xSemaphoreTake`; `blocked`: inside `xSemaphoreTake`, the permit not yet
granted; `holding`: the take has returned; `sleeping`: in `vTaskDelay`. -/
inductive Phase where
  | seeding (n : Nat)
  | entering
  | acquiring
  | blocked
  | holding
  | sleeping
  deriving DecidableEq, Repr

/-- The globals of the program, the program point of every worker, and the
log of calls made so far. -/
structure State where
  CountingSem : CountingGuard
  indx : Int
  rx_data : Nat
  phase : Worker → Phase
  log : List Call

/-- Append a call to the log. -/
def State.emit (s : State) (c : Call) : State := { s with log := s.log ++ [c] }

/-- Move a worker to another program point. -/
def State.setPhase (s : State) (w : Worker) (p : Phase) : State :=
  { s with phase := Function.update s.phase w p }

/-- The lines of `HPT_TASK` between the take and the sleep: render and report
`resource[indx]`, then `indx++; if (indx>2) indx=0;`.  Returns the value read;
`none` when the access is outside the array. -/
def HPT_TASK_read (s : State) : Option (Int × State) :=
  match readResource s.indx with
  | none => none
  | some v =>
    let str := "Leaving HPT Task\n Data ACCESSED is:: " ++ itoa v
      ++ "\n Not releasing the Semaphore\n\n\n"
    let s1 := s.emit (.HAL_UART_Transmit str str.length HAL_MAX_DELAY)
    let i1 := s1.indx + 1
    some (v, { s1 with indx := if i1 > 2 then 0 else i1 })

/-- The lines of `MPT_TASK` between the take and the sleep. -/
def MPT_TASK_read (s : State) : Option (Int × State) :=
  match readResource s.indx with
  | none => none
  | some v =>
    let str := "Leaving MPT Task\n Data ACCESSED is:: " ++ itoa v
      ++ "\n Not releasing the Semaphore\n\n\n"
    let s1 := s.emit (.HAL_UART_Transmit str str.length HAL_MAX_DELAY)
    let i1 := s1.indx + 1
    some (v, { s1 with indx := if i1 > 2 then 0 else i1 })

/-- The lines of `LPT_TASK` between the take and the sleep. -/
def LPT_TASK_read (s : State) : Option (Int × State) :=
  match readResource s.indx with
  | none => none
  | some v =>
    let str := "Leaving LPT Task\n Data ACCESSED is:: " ++ itoa v
      ++ "\n Not releasing the Semaphore\n\n\n"
    let s1 := s.emit (.HAL_UART_Transmit str str.length HAL_MAX_DELAY)
    let i1 := s1.indx + 1
    some (v, { s1 with indx := if i1 > 2 then 0 else i1 })

/-- The lines of `VLPT_TASK` between the take and the sleep. -/
def VLPT_TASK_read (s : State) : Option (Int × State) :=
  match readResource s.indx with
  | none => none
  | some v =>
    let str := "Leaving VLPT Task\n Data ACCESSED is:: " ++ itoa v
      ++ "\n Not releasing the Semaphore\n\n\n"
    let s1 := s.emit (.HAL_UART_Transmit str str.length HAL_MAX_DELAY)
    let i1 := s1.indx + 1
    some (v, { s1 with indx := if i1 > 2 then 0 else i1 })

/-- The read-and-advance step of a given worker. -/
def workerRead : Worker → State → Option (Int × State)
  | .HPT => HPT_TASK_read
  | .MPT => MPT_TASK_read
  | .LPT => LPT_TASK_read
  | .VLPT => VLPT_TASK_read

/-- Read-and-advance steps run one after another by the listed workers; the
result pairs the slot index each step read with the value it read. -/
def readMany : List Worker → State → Option (List (Int × Int) × State)
  | [], s => some ([], s)
  | w :: ws, s =>
    match workerRead w s with
    | none => none
    | some (v, s1) =>
      match readMany ws s1 with
      | none => none
      | some (rs, s2) => some ((s.indx, v) :: rs, s2)

/-- One step of `HPT_TASK` from its current program point.  The three
`xSemaphoreGive` calls come before the loop; the loop reports the permit
count, takes a permit with `portMAX_DELAY`, reads the pool, and sleeps for
3000 ticks. -/
def HPT_TASK (s : State) : State :=
  match s.phase .HPT with
  | .seeding (n + 1) =>
    let s1 := { s.emit .xSemaphoreGive with CountingSem := (xSemaphoreGive s.CountingSem).1 }
    s1.setPhase .HPT (if n = 0 then .entering else .seeding n)
  | .seeding 0 => s.setPhase .HPT .entering
  | .entering =>
    let semcount := uxSemaphoreGetCount s.CountingSem
    let str := "Entered HPT Task\n About to ACQUIRE the Semaphore\n "
      ++ "Tokens available are: " ++ itoa semcount ++ "\n\n"
    ((s.emit .uxSemaphoreGetCount).emit
      (.HAL_UART_Transmit str str.length HAL_MAX_DELAY)).setPhase .HPT .acquiring
  | .acquiring =>
    let r := xSemaphoreTake s.CountingSem .HPT
    ({ s.emit (.xSemaphoreTake portMAX_DELAY) with CountingSem := r.1 }).setPhase .HPT
      (if r.2 then .holding else .blocked)
  | .blocked =>
    let r := xSemaphoreTake s.CountingSem .HPT
    ({ s with CountingSem := r.1 }).setPhase .HPT (if r.2 then .holding else .blocked)
  | .holding =>
    match HPT_TASK_read s with
    | none => s
    | some (_, s1) => (s1.emit (.vTaskDelay 3000)).setPhase .HPT .sleeping
  | .sleeping => s.setPhase .HPT .entering

/-- One step of `MPT_TASK`: no seeding, no count report, sleep of 3000 ticks. -/
def MPT_TASK (s : State) : State :=
  match s.phase .MPT with
  | .seeding _ => s.setPhase .MPT .entering
  | .entering =>
    let str := "Entered MPT Task\n About to ACQUIRE the Semaphore\n "
    (s.emit (.HAL_UART_Transmit str str.length HAL_MAX_DELAY)).setPhase .MPT .acquiring
  | .acquiring =>
    let r := xSemaphoreTake s.CountingSem .MPT
    ({ s.emit (.xSemaphoreTake portMAX_DELAY) with CountingSem := r.1 }).setPhase .MPT
      (if r.2 then .holding else .blocked)
  | .blocked =>
    let r := xSemaphoreTake s.CountingSem .MPT
    ({ s with CountingSem := r.1 }).setPhase .MPT (if r.2 then .holding else .blocked)
  | .holding =>
    match MPT_TASK_read s with
    | none => s
    | some (_, s1) => (s1.emit (.vTaskDelay 3000)).setPhase .MPT .sleeping
  | .sleeping => s.setPhase .MPT .entering

/-- One step of `LPT_TASK`: sleep of 2000 ticks. -/
def LPT_TASK (s : State) : State :=
  match s.phase .LPT with
  | .seeding _ => s.setPhase .LPT .entering
  | .entering =>
    let str := "Entered LPT Task\n About to ACQUIRE the Semaphore\n "
    (s.emit (.HAL_UART_Transmit str str.length HAL_MAX_DELAY)).setPhase .LPT .acquiring
  | .acquiring =>
    let r := xSemaphoreTake s.CountingSem .LPT
    ({ s.emit (.xSemaphoreTake portMAX_DELAY) with CountingSem := r.1 }).setPhase .LPT
      (if r.2 then .holding else .blocked)
  | .blocked =>
    let r := xSemaphoreTake s.CountingSem .LPT
    ({ s with CountingSem := r.1 }).setPhase .LPT (if r.2 then .holding else .blocked)
  | .holding =>
    match LPT_TASK_read s with
    | none => s
    | some (_, s1) => (s1.emit (.vTaskDelay 2000)).setPhase .LPT .sleeping
  | .sleeping => s.setPhase .LPT .entering

/-- One step of `VLPT_TASK`: sleep of 1000 ticks. -/
def VLPT_TASK (s : State) : State :=
  match s.phase .VLPT with
  | .seeding _ => s.setPhase .VLPT .entering
  | .entering =>
    let str := "Entered VLPT Task\n About to ACQUIRE the Semaphore\n "
    (s.emit (.HAL_UART_Transmit str str.length HAL_MAX_DELAY)).setPhase .VLPT .acquiring
  | .acquiring =>
    let r := xSemaphoreTake s.CountingSem .VLPT
    ({ s.emit (.xSemaphoreTake portMAX_DELAY) with CountingSem := r.1 }).setPhase .VLPT
      (if r.2 then .holding else .blocked)
  | .blocked =>
    let r := xSemaphoreTake s.CountingSem .VLPT
    ({ s with CountingSem := r.1 }).setPhase .VLPT (if r.2 then .holding else .blocked)
  | .holding =>
    match VLPT_TASK_read s with
    | none => s
    | some (_, s1) => (s1.emit (.vTaskDelay 1000)).setPhase .VLPT .sleeping
  | .sleeping => s.setPhase .VLPT .entering

/-- A worker that sits in the guard's wait-set cannot run; any other worker
executes one step of its task function. -/
def step (s : State) (w : Worker) : State :=
  if w ∈ s.CountingSem.waiters then s
  else
    match w with
    | .HPT => HPT_TASK s
    | .MPT => MPT_TASK s
    | .LPT => LPT_TASK s
    | .VLPT => VLPT_TASK s

/-- The receive-complete handler of the guard demo.  `interrupted` is the
priority of the task the interrupt preempted. -/
def HAL_UART_RxCpltCallback (s : State) (interrupted : Nat) : State :=
  let s1 := s.emit (.HAL_UART_Receive_IT 1)
  if s1.rx_data = triggerByte then
    let r1 := xSemaphoreGiveFromISR s1.CountingSem interrupted false
    let s2 := { s1.emit .xSemaphoreGiveFromISR with CountingSem := r1.1 }
    let r2 := xSemaphoreGiveFromISR s2.CountingSem interrupted r1.2
    let s3 := { s2.emit .xSemaphoreGiveFromISR with CountingSem := r2.1 }
    let r3 := xSemaphoreGiveFromISR s3.CountingSem interrupted r2.2
    let s4 := { s3.emit .xSemaphoreGiveFromISR with CountingSem := r3.1 }
    s4.emit (.portEND_SWITCHING_ISR r3.2)
  else s1

/-- Three interrupt-context releases in a row, the flag threaded through them
and starting at `pdFALSE`: the guard and the flag the handler's burst ends
with. -/
def giveFromISR3 (g : CountingGuard) (interrupted : Nat) : CountingGuard × Bool :=
  let r1 := xSemaphoreGiveFromISR g interrupted false
  let r2 := xSemaphoreGiveFromISR r1.1 interrupted r1.2
  xSemaphoreGiveFromISR r2.1 interrupted r2.2

/-- The interrupt-context releases a log contains. -/
def isGiveFromISR : Call → Bool
  | .xSemaphoreGiveFromISR => true
  | _ => false

/-- The UART stores the received byte in `rx_data` and the handler runs. -/
def receiveByte (s : State) (b : Nat) (interrupted : Nat) : State :=
  HAL_UART_RxCpltCallback { s with rx_data := b } interrupted

/-- What `main` leaves behind: the semaphore handle (`none` for `NULL`) and the
calls it made. -/
structure Boot where
  CountingSem : Option CountingGuard
  log : List Call

/-- The user code of `main`, after the platform bring-up has returned.
`allocated` says whether the kernel could allocate the semaphore. -/
def main (allocated : Bool) : Boot :=
  let log0 := [Call.HAL_UART_Receive_IT 1, Call.xSemaphoreCreateCounting 3 0]
  let sem := xSemaphoreCreateCounting allocated 3 0
  let log1 :=
    match sem with
    | none => log0 ++ [Call.HAL_UART_Transmit "Unable to Create Semaphore\n\n" 28 100]
    | some _ =>
      log0 ++ [Call.HAL_UART_Transmit "Counting Semaphore created successfully\n\n" 41 100]
  { CountingSem := sem
    log := log1 ++
      [Call.xTaskCreate "HPT" 128 none 3,
       Call.xTaskCreate "MPT" 128 none 2,
       Call.xTaskCreate "LPT" 128 none 1,
       Call.xTaskCreate "VLPT" 128 none 0,
       Call.vTaskStartScheduler] }

/-- The program state when the scheduler starts with semaphore `g`: `indx` and
`rx_data` hold their initialisers, `HPT_TASK` has its three gives ahead of it,
the other workers are at the top of their loops. -/
def initial (g : CountingGuard) : State :=
  { CountingSem := g
    indx := 0
    rx_data := 0
    phase := fun w => match w with
      | .HPT => .seeding 3
      | _ => .entering
    log := [] }

/-- The state the scheduler starts from when the semaphore was created. -/
def start : State := initial { capacity := 3, count := 0, waiters := [] }

/-- An event of a run: a worker executes a step, or a byte arrives while a
task of the given priority is running. -/
inductive Step where
  | run (w : Worker)
  | byte (b : Nat) (interrupted : Nat)
  deriving DecidableEq, Repr

/-- Execute one event. -/
def exec (s : State) : Step → State
  | .run w => step s w
  | .byte b p => receiveByte s b p

/-- Execute a sequence of events. -/
def execAll (s : State) (steps : List Step) : State := steps.foldl exec s

/-- A worker is suspended when it waits for a permit or sleeps. -/
def suspended (s : State) (w : Worker) : Bool :=
  decide (w ∈ s.CountingSem.waiters) || decide (s.phase w = .sleeping)

/-- Run one worker until it suspends (at most `fuel` steps). -/
def runToSuspension : Nat → State → Worker → State
  | 0, s, _ => s
  | fuel + 1, s, w => if suspended s w then s else runToSuspension fuel (step s w) w

/-- The task-context releases a log contains. -/
def isGive : Call → Bool
  | .xSemaphoreGive => true
  | _ => false

/-- The listed workers run one after another from the start state, each up to
its first suspension. -/
def startupUpTo (ws : List Worker) : State := ws.foldl (runToSuspension 16) start

/-- The start-up run: the workers run in priority order, each up to its first
suspension. -/
def startup : State := startupUpTo [Worker.HPT, Worker.MPT, Worker.LPT, Worker.VLPT]

/-- The situation the start-up run ends in: no permit left, `VLPT_TASK` in the
wait-set and inside its take, no seeding give ahead of any worker, and three
task-context releases logged. -/
def Starved (s : State) : Prop :=
  s.CountingSem.count = 0
  ∧ Worker.VLPT ∈ s.CountingSem.waiters
  ∧ (∀ u n, s.phase u ≠ Phase.seeding (n + 1))
  ∧ s.phase Worker.VLPT = Phase.blocked
  ∧ s.log.countP isGive = 3

/-- The guard of this program is well-formed when its capacity is 3 and its
permit count lies in [0, 3]. -/
def GuardInv (g : CountingGuard) : Prop := g.capacity = 3 ∧ 0 ≤ g.count ∧ g.count ≤ 3

/-- The argument of the `vTaskDelay` call that closes the loop body of each
worker: `vTaskDelay(3000)` in `HPT_TASK` and in `MPT_TASK`, `vTaskDelay(2000)`
in `LPT_TASK`, `vTaskDelay(1000)` in `VLPT_TASK`. -/
def taskDelay : Worker → Nat
  | .HPT => 3000
  | .MPT => 3000
  | .LPT => 2000
  | .VLPT => 1000

/-- The size of the local `char sresource[3]` every worker hands to `itoa` for
the value it read.  The task functions above render the value itself; whether
the rendering fits this buffer is a separate question. -/
def sresource_size : Nat := 3

/-- The size of the local `char ssemcount[2]` `HPT_TASK` hands to `itoa` for
the permit count. -/
def ssemcount_size : Nat := 2

end CountingSemaphore

namespace SimpleQueue

/-- The three tasks created by `main`. -/
inductive Task where
  | Sender_HPT
  | Sender_LPT
  | Receiver
  deriving DecidableEq, Repr

/-- The priority `main` passes to `xTaskCreate` for each task. -/
def Task.priority : Task → Nat
  | .Sender_HPT => 3
  | .Sender_LPT => 2
  | .Receiver => 1

/-- Modelled from the spec: the Bounded Channel of the data model, a
"fixed-capacity FIFO" of integer messages, head first, together with the
tasks blocked in a receive and in a send.  The kernel's queue implementation
is not in the two source files. -/
structure BoundedChannel where
  capacity : Nat
  items : List Int
  receivers : List Task
  senders : List Task
  deriving DecidableEq, Repr

/-- Modelled from the spec: `create(capacity)` gives an "empty channel; fails
analogous to the guard". -/
def xQueueCreate (allocated : Bool) (uxQueueLength : Nat) : Option BoundedChannel :=
  if allocated then
    some { capacity := uxQueueLength, items := [], receivers := [], senders := [] }
  else none

/-- Modelled from the spec: `send(channel, message, timeout)` with the
infinite timeout "blocks until a free slot exists" and "appends at tail (FIFO
order) on success".  The result says whether the message was queued; a
caller that finds the channel full joins the blocked senders.  A successful
send wakes the highest-priority blocked receiver. -/
def xQueueSend (ch : BoundedChannel) (t : Task) (m : Int) : BoundedChannel × Bool :=
  if ch.items.length < ch.capacity then
    let woken := pickWaiter Task.priority ch.receivers
    ({ ch with
        items := ch.items ++ [m]
        receivers := match woken with
          | none => ch.receivers
          | some r => ch.receivers.erase r }, true)
  else
    ({ ch with senders := if t ∈ ch.senders then ch.senders else ch.senders ++ [t] }, false)

/-- Modelled from the spec: `send_to_front_from_interrupt(channel, message)` is
"non-blocking; inserts ahead of all currently queued messages ... and fails
immediately (does not block, does not retry) if the channel is full; returns
success/failure plus a reschedule-needed flag identical in spirit to" the
guard's.  The result is the channel, the success flag and the updated
reschedule flag. -/
def xQueueSendToFrontFromISR (ch : BoundedChannel) (m : Int) (interrupted : Nat)
    (woken : Bool) : BoundedChannel × Bool × Bool :=
  if ch.items.length < ch.capacity then
    match pickWaiter Task.priority ch.receivers with
    | none => ({ ch with items := m :: ch.items }, true, woken)
    | some r =>
      ({ ch with items := m :: ch.items, receivers := ch.receivers.erase r }, true,
        woken || decide (interrupted ≤ r.priority))
  else (ch, false, woken)

/-- Modelled from the spec: `receive(channel, timeout)` with the infinite
timeout "blocks until a message is available" and "removes and returns the
head message".  The result is the message, or `none` when the caller has to
wait; a caller that finds the channel empty joins the blocked receivers.  A
successful receive wakes the highest-priority blocked sender. -/
def xQueueReceive (ch : BoundedChannel) (t : Task) : BoundedChannel × Option Int :=
  match ch.items with
  | [] =>
    ({ ch with receivers := if t ∈ ch.receivers then ch.receivers else ch.receivers ++ [t] },
      none)
  | m :: rest =>
    let woken := pickWaiter Task.priority ch.senders
    ({ ch with
        items := rest
        senders := match woken with
          | none => ch.senders
          | some r => ch.senders.erase r }, some m)

/-- Program points of a task of the channel demo.  `entering`: at the top of
the loop; `calling`: about to call the send or the receive; `blocked`: inside
that call, not yet served; `sleeping`: in `vTaskDelay`. -/
inductive Phase where
  | entering
  | calling
  | blocked
  | sleeping
  deriving DecidableEq, Repr

/-- The globals of the program, the program point of every task, the
receiver's local `received`, and the log of calls made so far. -/
structure State where
  SimpleQueue : BoundedChannel
  Rx_data : Nat
  received : Int
  phase : Task → Phase
  log : List Call

/-- Append a call to the log. -/
def State.emit (s : State) (c : Call) : State := { s with log := s.log ++ [c] }

/-- Move a task to another program point. -/
def State.setPhase (s : State) (t : Task) (p : Phase) : State :=
  { s with phase := Function.update s.phase t p }

/-- The value `Sender_HPT_Task` sends: its local `int i=222`. -/
def Sender_HPT_value : Int := 222

/-- The sleep of `Sender_HPT_Task`: `TickDelay = pdMS_TO_TICKS(2000)`.  The
conversion macro is a header definition and is taken as a parameter. -/
def Sender_HPT_TickDelay (pdMS_TO_TICKS : Nat → Nat) : Nat := pdMS_TO_TICKS 2000

/-- The value `Sender_LPT_Task` sends: `ToSend = (int)(intptr_t) argument`. -/
def Sender_LPT_value (argument : Int) : Int := argument

/-- The sleep of `Sender_LPT_Task`: `TickDelay = pdMS_TO_TICKS(1000)`. -/
def Sender_LPT_TickDelay (pdMS_TO_TICKS : Nat → Nat) : Nat := pdMS_TO_TICKS 1000

/-- The sleep of `Receiver_Task`: `TickDelay = pdMS_TO_TICKS(500)`. -/
def Receiver_TickDelay (pdMS_TO_TICKS : Nat → Nat) : Nat := pdMS_TO_TICKS 500

/-- One step of `Sender_HPT_Task`: send `i` with `portMAX_DELAY`, report, sleep. -/
def Sender_HPT_Task (pdMS_TO_TICKS : Nat → Nat) (s : State) : State :=
  let sent (s1 : State) : State :=
    let str2 := " Successfully sent the number to the queue\nLeaving SENDER_HPT Task\n\n\n"
    ((s1.emit (.HAL_UART_Transmit str2 str2.length HAL_MAX_DELAY)).emit
      (.vTaskDelay (Sender_HPT_TickDelay pdMS_TO_TICKS))).setPhase .Sender_HPT .sleeping
  match s.phase .Sender_HPT with
  | .entering => s.setPhase .Sender_HPT .calling
  | .calling =>
    let r := xQueueSend s.SimpleQueue .Sender_HPT Sender_HPT_value
    let s1 := { s.emit (.xQueueSend Sender_HPT_value portMAX_DELAY) with SimpleQueue := r.1 }
    if r.2 then sent s1 else s1.setPhase .Sender_HPT .blocked
  | .blocked =>
    let r := xQueueSend s.SimpleQueue .Sender_HPT Sender_HPT_value
    let s1 := { s with SimpleQueue := r.1 }
    if r.2 then sent s1 else s1
  | .sleeping => s.setPhase .Sender_HPT .entering

/-- One step of `Sender_LPT_Task`, whose value is its task argument. -/
def Sender_LPT_Task (pdMS_TO_TICKS : Nat → Nat) (argument : Int) (s : State) : State :=
  let sent (s1 : State) : State :=
    let str2 := " Successfully sent the number to the queue\nLeaving SENDER_LPT Task\n\n\n"
    ((s1.emit (.HAL_UART_Transmit str2 str2.length HAL_MAX_DELAY)).emit
      (.vTaskDelay (Sender_LPT_TickDelay pdMS_TO_TICKS))).setPhase .Sender_LPT .sleeping
  match s.phase .Sender_LPT with
  | .entering =>
    let str2 := " Entered SENDER_LPT task\n About to send a number to the queue"
    (s.emit (.HAL_UART_Transmit str2 str2.length HAL_MAX_DELAY)).setPhase .Sender_LPT .calling
  | .calling =>
    let r := xQueueSend s.SimpleQueue .Sender_LPT (Sender_LPT_value argument)
    let s1 :=
      { s.emit (.xQueueSend (Sender_LPT_value argument) portMAX_DELAY) with SimpleQueue := r.1 }
    if r.2 then sent s1 else s1.setPhase .Sender_LPT .blocked
  | .blocked =>
    let r := xQueueSend s.SimpleQueue .Sender_LPT (Sender_LPT_value argument)
    let s1 := { s with SimpleQueue := r.1 }
    if r.2 then sent s1 else s1
  | .sleeping => s.setPhase .Sender_LPT .entering

/-- One step of `Receiver_Task`: receive with `portMAX_DELAY`, format and
report the value, sleep. -/
def Receiver_Task (pdMS_TO_TICKS : Nat → Nat) (s : State) : State :=
  let got (s1 : State) (v : Int) : State :=
    let str := " Successfully RECEIVED the number " ++ itoa v
      ++ " to the queue\nLeaving RECEIVER Task\n\n\n"
    (({ s1 with received := v }.emit (.HAL_UART_Transmit str str.length HAL_MAX_DELAY)).emit
      (.vTaskDelay (Receiver_TickDelay pdMS_TO_TICKS))).setPhase .Receiver .sleeping
  match s.phase .Receiver with
  | .entering => s.setPhase .Receiver .calling
  | .calling =>
    let r := xQueueReceive s.SimpleQueue .Receiver
    let s1 := { s.emit (.xQueueReceive portMAX_DELAY) with SimpleQueue := r.1 }
    match r.2 with
    | some v => got s1 v
    | none => s1.setPhase .Receiver .blocked
  | .blocked =>
    let r := xQueueReceive s.SimpleQueue .Receiver
    let s1 := { s with SimpleQueue := r.1 }
    match r.2 with
    | some v => got s1 v
    | none => s1
  | .sleeping => s.setPhase .Receiver .entering

/-- The receive-complete handler of the channel demo.  `interrupted` is the
priority of the task the interrupt preempted. -/
def HAL_UART_RxCpltCallback (s : State) (interrupted : Nat) : State :=
  let s1 := s.emit (.HAL_UART_Receive_IT 1)
  let ToSend : Int := 123456789
  if s1.Rx_data = triggerByte then
    let r := xQueueSendToFrontFromISR s1.SimpleQueue ToSend interrupted false
    let s2 := { s1.emit (.xQueueSendToFrontFromISR ToSend) with SimpleQueue := r.1 }
    let s3 :=
      if r.2.1 then s2.emit (.HAL_UART_Transmit "\n\nSent from ISR\n\n" 17 500)
      else s2.emit (.HAL_UART_Transmit "QUEUE NULL!\n" 12 100)
    s3.emit (.portYIELD_FROM_ISR r.2.2)
  else s1

/-- The UART stores the received byte in `Rx_data` and the handler runs. -/
def receiveByte (s : State) (b : Nat) (interrupted : Nat) : State :=
  HAL_UART_RxCpltCallback { s with Rx_data := b } interrupted

/-- What `main` leaves behind: the queue handle (`none` for `0`) and the calls
it made. -/
structure Boot where
  SimpleQueue : Option BoundedChannel
  log : List Call

/-- The user code of `main`, after the platform bring-up has returned.
`allocated` says whether the kernel could allocate the queue. -/
def main (allocated : Bool) : Boot :=
  let log0 := [Call.xQueueCreate 5]
  let queue := xQueueCreate allocated 5
  let log1 :=
    match queue with
    | none =>
      let str := "Unable to create Integer Queue\n\n"
      log0 ++ [Call.HAL_UART_Transmit str str.length HAL_MAX_DELAY]
    | some _ =>
      let str := "Integer Queue created successfully\n\n"
      log0 ++ [Call.HAL_UART_Transmit str str.length HAL_MAX_DELAY]
  { SimpleQueue := queue
    log := log1 ++
      [Call.xTaskCreate "HPT_SEND" 128 none 3,
       Call.xTaskCreate "LPT_SEND" 128 (some 111) 2,
       Call.xTaskCreate "Receive" 128 none 1,
       Call.HAL_UART_Receive_IT 1,
       Call.vTaskStartScheduler] }

/-- The argument `main` hands to `Sender_LPT_Task`: `(void *)111`. -/
def Sender_LPT_argument : Int := 111

/-- The program state when the scheduler starts with queue `ch`. -/
def initial (ch : BoundedChannel) : State :=
  { SimpleQueue := ch
    Rx_data := 0
    received := 0
    phase := fun _ => .entering
    log := [] }

/-- A task blocked in the queue cannot run; any other task executes one step
of its task function. -/
def step (pdMS_TO_TICKS : Nat → Nat) (s : State) (t : Task) : State :=
  if t ∈ s.SimpleQueue.receivers ∨ t ∈ s.SimpleQueue.senders then s
  else
    match t with
    | .Sender_HPT => Sender_HPT_Task pdMS_TO_TICKS s
    | .Sender_LPT => Sender_LPT_Task pdMS_TO_TICKS Sender_LPT_argument s
    | .Receiver => Receiver_Task pdMS_TO_TICKS s

/-- Task-context sends of the listed values, one after another, by a task
that is never made to wait (`none` as soon as one of them finds the channel
full). -/
def sendAll (t : Task) : BoundedChannel → List Int → Option BoundedChannel
  | ch, [] => some ch
  | ch, m :: ms =>
    match xQueueSend ch t m with
    | (ch1, true) => sendAll t ch1 ms
    | (_, false) => none

/-- The values returned by `n` receives, one after another, by a task that is
never made to wait (`none` as soon as one of them finds the channel empty). -/
def receiveN (t : Task) : Nat → BoundedChannel → Option (List Int × BoundedChannel)
  | 0, ch => some ([], ch)
  | n + 1, ch =>
    match xQueueReceive ch t with
    | (ch1, some m) =>
      match receiveN t n ch1 with
      | some (ms, ch2) => some (m :: ms, ch2)
      | none => none
    | (_, none) => none

/-- The send-to-front attempts a log contains. -/
def isSendToFront : Call → Bool
  | .xQueueSendToFrontFromISR _ => true
  | _ => false

/-- The size of the local `char str[80]` of `Receiver_Task`. -/
def Receiver_str_size : Nat := 80

/-- The text `Receiver_Task` formats into `str` for a received value:
`sprintf(str, " Successfully RECEIVED the number %d to the queue\nLeaving
RECEIVER Task\n\n\n", received)`. -/
def Receiver_line (received : Int) : String :=
  " Successfully RECEIVED the number " ++ itoa received
    ++ " to the queue\nLeaving RECEIVER Task\n\n\n"

/-- The value the receive-complete handler inserts: its local
`int ToSend = 123456789`. -/
def ISR_value : Int := 123456789

end SimpleQueue

namespace CountingSemaphore

/-- Unfolding of the four read-and-advance steps: when the array access
succeeds, every worker returns the value read and leaves the advanced cursor;
the guard and the program points are untouched. -/
theorem workerRead_some (w : Worker) (s : State) (v : Int)
    (h : readResource s.indx = some v) :
    ∃ s1, workerRead w s = some (v, s1)
      ∧ s1.indx = (if s.indx + 1 > 2 then 0 else s.indx + 1)
      ∧ s1.CountingSem = s.CountingSem
      ∧ s1.phase = s.phase
      ∧ s1.rx_data = s.rx_data
      ∧ ∃ c, s1.log = s.log ++ [c] ∧ c.waitArgument = some HAL_MAX_DELAY
          ∧ ∃ text size, c = Call.HAL_UART_Transmit text size HAL_MAX_DELAY := by
  cases w <;>
    simp only [workerRead, HPT_TASK_read, MPT_TASK_read, LPT_TASK_read, VLPT_TASK_read, h,
      State.emit] <;>
    exact ⟨_, rfl, rfl, rfl, rfl, rfl, _, rfl, rfl, _, _, rfl⟩

/-- The array access succeeds exactly at the indices 0, 1 and 2. -/
theorem readResource_inside (i : Int) (h0 : 0 ≤ i) (h3 : i < 3) :
    ∃ v, readResource i = some v ∧ resource[i.toNat]? = some v := by
  have hc : i = 0 ∨ i = 1 ∨ i = 2 := by omega
  rcases hc with hc | hc | hc <;> subst hc <;> simp [readResource, resource]

/-- The read-and-advance step on a state whose cursor is inside the pool. -/
theorem workerRead_spec (w : Worker) (s : State) (h0 : 0 ≤ s.indx) (h3 : s.indx < 3) :
    ∃ v s1, workerRead w s = some (v, s1)
      ∧ resource[s.indx.toNat]? = some v
      ∧ s1.indx = (s.indx + 1) % 3
      ∧ s1.CountingSem = s.CountingSem
      ∧ s1.phase = s.phase := by
  obtain ⟨v, hv, hv2⟩ := readResource_inside s.indx h0 h3
  obtain ⟨s1, hr, hi, hg, hp, _⟩ := workerRead_some w s v hv
  refine ⟨v, s1, hr, hv2, ?_, hg, hp⟩
  rw [hi]
  split <;> omega

/-- C1: for every cursor value in [0, 3) the read-and-advance step of every
worker reads `resource[indx]` and leaves `indx` at `(indx + 1) mod 3`, which is
again in [0, 3); all four workers read the same value and leave the same
cursor. -/
theorem C1_read_and_advance (w : Worker) (s : State) (h0 : 0 ≤ s.indx) (h3 : s.indx < 3) :
    ∃ v s1, workerRead w s = some (v, s1)
      ∧ resource[s.indx.toNat]? = some v
      ∧ s1.indx = (s.indx + 1) % 3
      ∧ 0 ≤ s1.indx ∧ s1.indx < 3
      ∧ ∀ u : Worker, (workerRead u s).map (fun r => (r.1, r.2.indx)) = some (v, s1.indx) := by
  obtain ⟨v, s1, hr, hv, hi, _, _⟩ := workerRead_spec w s h0 h3
  refine ⟨v, s1, hr, hv, hi, by omega, by omega, ?_⟩
  intro u
  obtain ⟨v2, s2, hr2, hv2, hi2, _, _⟩ := workerRead_spec u s h0 h3
  have hvv : v2 = v := by
    rw [hv] at hv2
    exact (Option.some.inj hv2).symm
  simp [hr2, hvv, hi2, hi]

/-- Witness for C1: the step of `HPT_TASK` from the start state. -/
theorem C1_read_and_advance_witness :
    ∃ v s1, workerRead Worker.HPT start = some (v, s1)
      ∧ resource[start.indx.toNat]? = some v
      ∧ s1.indx = (start.indx + 1) % 3
      ∧ 0 ≤ s1.indx ∧ s1.indx < 3
      ∧ ∀ u : Worker,
          (workerRead u start).map (fun r => (r.1, r.2.indx)) = some (v, s1.indx) :=
  C1_read_and_advance Worker.HPT start (by decide) (by decide)

/-- C2: from any cursor value in [0, 3), three consecutive read-and-advance
steps, by any workers, read the three slots (0, 111), (1, 222), (2, 333) each
exactly once, and the fourth step reads the slot and value of the first. -/
theorem C2_cursor_wraparound (w1 w2 w3 w4 : Worker) (s : State)
    (h0 : 0 ≤ s.indx) (h3 : s.indx < 3) :
    ∃ r1 r2 r3 r4 s4, readMany [w1, w2, w3, w4] s = some ([r1, r2, r3, r4], s4)
      ∧ [r1, r2, r3].Perm [(0, 111), (1, 222), (2, 333)]
      ∧ r4 = r1 := by
  obtain ⟨v1, s1, e1, hv1, hi1, _, _⟩ := workerRead_spec w1 s h0 h3
  obtain ⟨v2, s2, e2, hv2, hi2, _, _⟩ := workerRead_spec w2 s1 (by omega) (by omega)
  obtain ⟨v3, s3, e3, hv3, hi3, _, _⟩ := workerRead_spec w3 s2 (by omega) (by omega)
  obtain ⟨v4, s4, e4, hv4, _, _, _⟩ := workerRead_spec w4 s3 (by omega) (by omega)
  refine ⟨(s.indx, v1), (s1.indx, v2), (s2.indx, v3), (s3.indx, v4), s4, ?_, ?_, ?_⟩
  · simp [readMany, e1, e2, e3, e4]
  · have hc : s.indx = 0 ∨ s.indx = 1 ∨ s.indx = 2 := by omega
    rcases hc with hc | hc | hc <;>
      · rw [hc] at hi1 hv1
        norm_num at hi1
        rw [hi1] at hi2 hv2
        norm_num at hi2
        rw [hi2] at hv3
        simp [resource] at hv1 hv2 hv3
        subst hv1 hv2 hv3
        rw [hc, hi1, hi2] <;> try decide
  · have h30 : s3.indx = s.indx := by omega
    rw [h30] at hv4
    rw [hv1] at hv4
    rw [h30, Option.some.inj hv4]

/-- Witness for C2: the start-up order of the workers from the start state. -/
theorem C2_cursor_wraparound_witness :
    ∃ r1 r2 r3 r4 s4,
      readMany [Worker.HPT, Worker.MPT, Worker.LPT, Worker.VLPT] start
        = some ([r1, r2, r3, r4], s4)
      ∧ [r1, r2, r3].Perm [(0, 111), (1, 222), (2, 333)]
      ∧ r4 = r1 :=
  C2_cursor_wraparound Worker.HPT Worker.MPT Worker.LPT Worker.VLPT start
    (by decide) (by decide)

end CountingSemaphore

/-- The log and the guard the guard demo's handler leaves for a received byte. -/
theorem guard_receiveByte_eq (s : CountingSemaphore.State) (b p : Nat) :
    (CountingSemaphore.receiveByte s b p).log = s.log ++
        (if b = triggerByte then
          [Call.HAL_UART_Receive_IT 1, Call.xSemaphoreGiveFromISR, Call.xSemaphoreGiveFromISR,
            Call.xSemaphoreGiveFromISR,
            Call.portEND_SWITCHING_ISR (CountingSemaphore.giveFromISR3 s.CountingSem p).2]
        else [Call.HAL_UART_Receive_IT 1])
    ∧ (CountingSemaphore.receiveByte s b p).CountingSem =
        (if b = triggerByte then (CountingSemaphore.giveFromISR3 s.CountingSem p).1
        else s.CountingSem)
    ∧ (CountingSemaphore.receiveByte s b p).phase = s.phase
    ∧ (CountingSemaphore.receiveByte s b p).indx = s.indx := by
  unfold CountingSemaphore.receiveByte CountingSemaphore.HAL_UART_RxCpltCallback
  by_cases h : b = triggerByte
  · simp [h, CountingSemaphore.State.emit, CountingSemaphore.giveFromISR3]
  · simp [h, CountingSemaphore.State.emit]

/-- The log and the channel the channel demo's handler leaves for a received
byte. -/
theorem channel_receiveByte_eq (s : SimpleQueue.State) (b p : Nat) :
    (SimpleQueue.receiveByte s b p).log = s.log ++
        (if b = triggerByte then
          [Call.HAL_UART_Receive_IT 1, Call.xQueueSendToFrontFromISR 123456789,
            (if (SimpleQueue.xQueueSendToFrontFromISR s.SimpleQueue 123456789 p false).2.1
              then Call.HAL_UART_Transmit "\n\nSent from ISR\n\n" 17 500
              else Call.HAL_UART_Transmit "QUEUE NULL!\n" 12 100),
            Call.portYIELD_FROM_ISR
              (SimpleQueue.xQueueSendToFrontFromISR s.SimpleQueue 123456789 p false).2.2]
        else [Call.HAL_UART_Receive_IT 1])
    ∧ (SimpleQueue.receiveByte s b p).SimpleQueue =
        (if b = triggerByte then
          (SimpleQueue.xQueueSendToFrontFromISR s.SimpleQueue 123456789 p false).1
        else s.SimpleQueue) := by
  unfold SimpleQueue.receiveByte SimpleQueue.HAL_UART_RxCpltCallback
  by_cases h : b = triggerByte
  · by_cases hk : (SimpleQueue.xQueueSendToFrontFromISR s.SimpleQueue 123456789 p false).2.1
    · simp [h, hk, SimpleQueue.State.emit]
    · simp [h, hk, SimpleQueue.State.emit]
  · simp [h, SimpleQueue.State.emit]

/-- C3: for every received byte the handler acts exactly when the byte is the
trigger character.  Guard demo: the calls are the re-arm, three
`xSemaphoreGiveFromISR` and one `portEND_SWITCHING_ISR`; channel demo: the
re-arm, one `xQueueSendToFrontFromISR`, one report and the reschedule request.
For any other byte the only call is the re-arm and the guard or channel is
unchanged.  Over any sequence of received bytes the number of releases is
three times, and the number of send-to-front attempts once, the number of
trigger bytes. -/
theorem C3_trigger_byte (sg : CountingSemaphore.State) (sq : SimpleQueue.State)
    (b p : Nat) (bs : List Nat) :
    ((CountingSemaphore.receiveByte sg b p).log = sg.log ++
        (if b = triggerByte then
          [Call.HAL_UART_Receive_IT 1, Call.xSemaphoreGiveFromISR, Call.xSemaphoreGiveFromISR,
            Call.xSemaphoreGiveFromISR,
            Call.portEND_SWITCHING_ISR (CountingSemaphore.giveFromISR3 sg.CountingSem p).2]
        else [Call.HAL_UART_Receive_IT 1]))
    ∧ ((CountingSemaphore.receiveByte sg b p).CountingSem =
        (if b = triggerByte then (CountingSemaphore.giveFromISR3 sg.CountingSem p).1
        else sg.CountingSem))
    ∧ ((SimpleQueue.receiveByte sq b p).log = sq.log ++
        (if b = triggerByte then
          [Call.HAL_UART_Receive_IT 1, Call.xQueueSendToFrontFromISR 123456789,
            (if (SimpleQueue.xQueueSendToFrontFromISR sq.SimpleQueue 123456789 p false).2.1
              then Call.HAL_UART_Transmit "\n\nSent from ISR\n\n" 17 500
              else Call.HAL_UART_Transmit "QUEUE NULL!\n" 12 100),
            Call.portYIELD_FROM_ISR
              (SimpleQueue.xQueueSendToFrontFromISR sq.SimpleQueue 123456789 p false).2.2]
        else [Call.HAL_UART_Receive_IT 1]))
    ∧ ((SimpleQueue.receiveByte sq b p).SimpleQueue =
        (if b = triggerByte then
          (SimpleQueue.xQueueSendToFrontFromISR sq.SimpleQueue 123456789 p false).1
        else sq.SimpleQueue))
    ∧ ((bs.foldl (fun s c => CountingSemaphore.receiveByte s c p) sg).log.countP
          CountingSemaphore.isGiveFromISR
        = sg.log.countP CountingSemaphore.isGiveFromISR + 3 * bs.count triggerByte)
    ∧ ((bs.foldl (fun s c => SimpleQueue.receiveByte s c p) sq).log.countP
          SimpleQueue.isSendToFront
        = sq.log.countP SimpleQueue.isSendToFront + bs.count triggerByte) := by
  refine ⟨(guard_receiveByte_eq sg b p).1, (guard_receiveByte_eq sg b p).2.1,
    (channel_receiveByte_eq sq b p).1, (channel_receiveByte_eq sq b p).2, ?_, ?_⟩
  · induction bs generalizing sg with
    | nil => simp
    | cons c cs ih =>
      rw [List.foldl_cons, ih, (guard_receiveByte_eq sg c p).1, List.countP_append,
        List.count_cons]
      by_cases h : c = triggerByte
      · simp [h, CountingSemaphore.isGiveFromISR, List.countP_cons]
        omega
      · have h2 : ¬ triggerByte = c := fun e => h e.symm
        simp [h, h2, CountingSemaphore.isGiveFromISR, List.countP_cons]
  · induction bs generalizing sq with
    | nil => simp
    | cons c cs ih =>
      rw [List.foldl_cons, ih, (channel_receiveByte_eq sq c p).1, List.countP_append,
        List.count_cons]
      by_cases h : c = triggerByte
      · by_cases hk :
          (SimpleQueue.xQueueSendToFrontFromISR sq.SimpleQueue 123456789 p false).2.1
        · simp [h, hk, SimpleQueue.isSendToFront, List.countP_cons]
          omega
        · simp [h, hk, SimpleQueue.isSendToFront, List.countP_cons]
          omega
      · have h2 : ¬ triggerByte = c := fun e => h e.symm
        simp [h, h2, SimpleQueue.isSendToFront, List.countP_cons]

/-- C4, as stated, fails: when the creation fails, `main` of either demo still
creates its tasks and starts the scheduler. -/
theorem C4_counterexample :
    (CountingSemaphore.main false).CountingSem = none
    ∧ startupHalted (CountingSemaphore.main false).log = false
    ∧ (SimpleQueue.main false).SimpleQueue = none
    ∧ startupHalted (SimpleQueue.main false).log = false := by
  refine ⟨rfl, ?_, rfl, ?_⟩ <;> decide

/-- C4, amended: when the creation fails, `main` reports the failure (it
transmits the failure text, not the success text) and then makes exactly the
calls it makes after a successful creation: every `xTaskCreate` and
`vTaskStartScheduler`. -/
theorem C4_creation_failure_reported_not_halted :
    (CountingSemaphore.main false).CountingSem = none
    ∧ (CountingSemaphore.main false).log =
        [Call.HAL_UART_Receive_IT 1, Call.xSemaphoreCreateCounting 3 0,
          Call.HAL_UART_Transmit "Unable to Create Semaphore\n\n" 28 100,
          Call.xTaskCreate "HPT" 128 none 3, Call.xTaskCreate "MPT" 128 none 2,
          Call.xTaskCreate "LPT" 128 none 1, Call.xTaskCreate "VLPT" 128 none 0,
          Call.vTaskStartScheduler]
    ∧ (CountingSemaphore.main false).log.drop 3 = (CountingSemaphore.main true).log.drop 3
    ∧ (SimpleQueue.main false).SimpleQueue = none
    ∧ (SimpleQueue.main false).log =
        [Call.xQueueCreate 5,
          Call.HAL_UART_Transmit "Unable to create Integer Queue\n\n" 32 HAL_MAX_DELAY,
          Call.xTaskCreate "HPT_SEND" 128 none 3, Call.xTaskCreate "LPT_SEND" 128 (some 111) 2,
          Call.xTaskCreate "Receive" 128 none 1, Call.HAL_UART_Receive_IT 1,
          Call.vTaskStartScheduler]
    ∧ (SimpleQueue.main false).log.drop 2 = (SimpleQueue.main true).log.drop 2 := by
  refine ⟨rfl, ?_, ?_, rfl, ?_, ?_⟩ <;> decide

namespace CountingSemaphore

/-- An acquire keeps the guard well-formed. -/
theorem take_inv (g : CountingGuard) (t : Worker) (h : GuardInv g) :
    GuardInv (xSemaphoreTake g t).1 := by
  obtain ⟨hcap, h0, h3⟩ := h
  unfold xSemaphoreTake
  split
  · exact ⟨hcap, by simp; omega, by simp; omega⟩
  · exact ⟨hcap, h0, h3⟩

/-- The count a release leaves: one more, saturating at the capacity; the
capacity itself is unchanged. -/
theorem give_count (g : CountingGuard) :
    (xSemaphoreGive g).1.count = (if g.count < g.capacity then g.count + 1 else g.count)
    ∧ (xSemaphoreGive g).1.capacity = g.capacity := by
  cases h : pickWaiter Worker.priority g.waiters <;> simp [xSemaphoreGive, h]

/-- A release keeps the guard well-formed. -/
theorem give_inv (g : CountingGuard) (h : GuardInv g) : GuardInv (xSemaphoreGive g).1 := by
  obtain ⟨hcap, h0, h3⟩ := h
  obtain ⟨hc, hk⟩ := give_count g
  refine ⟨by rw [hk]; exact hcap, ?_, ?_⟩ <;> rw [hc] <;> split <;> omega

/-- The interrupt-context release changes the guard as the task-context one. -/
theorem giveFromISR_fst (g : CountingGuard) (p : Nat) (f : Bool) :
    (xSemaphoreGiveFromISR g p f).1 = (xSemaphoreGive g).1 := by
  unfold xSemaphoreGiveFromISR
  split <;> simp_all

/-- The guard after a burst is the guard after three releases. -/
theorem giveFromISR3_fst (g : CountingGuard) (p : Nat) :
    (giveFromISR3 g p).1 = (xSemaphoreGive (xSemaphoreGive (xSemaphoreGive g).1).1).1 := by
  simp [giveFromISR3, giveFromISR_fst]

/-- The read-and-advance step touches neither the guard nor the program
points, and logs one transmit. -/
theorem workerRead_frame (w : Worker) (s s1 : State) (v : Int)
    (h : workerRead w s = some (v, s1)) :
    s1.CountingSem = s.CountingSem ∧ s1.phase = s.phase
      ∧ ∃ c, s1.log = s.log ++ [c] ∧ isGive c = false := by
  cases hr : readResource s.indx with
  | none =>
    cases w <;>
      simp [workerRead, HPT_TASK_read, MPT_TASK_read, LPT_TASK_read, VLPT_TASK_read, hr] at h
  | some v2 =>
    obtain ⟨s2, e2, _, hg, hp, _, c, hl, _, text, size, hc⟩ := workerRead_some w s v2 hr
    rw [e2] at h
    have hs : s2 = s1 := (Prod.mk.inj (Option.some.inj h)).2
    subst hs
    exact ⟨hg, hp, c, hl, by rw [hc]; rfl⟩

/-- What one step of a worker can do.  A worker acquires a program point with
seeding gives ahead only if it had one before; the program points of the other
workers are untouched.  The guard is left alone, or released once (only while
the worker has seeding gives ahead), or acquired once by that worker; outside
the seeding, no `xSemaphoreGive` is logged. -/
theorem step_effect (s : State) (w : Worker) :
    (∀ u m, (step s w).phase u = Phase.seeding (m + 1) → ∃ k, s.phase u = Phase.seeding (k + 1))
    ∧ (∀ u, u ≠ w → (step s w).phase u = s.phase u)
    ∧ (((step s w).CountingSem = s.CountingSem
          ∧ (step s w).log.countP isGive = s.log.countP isGive)
      ∨ ((step s w).CountingSem = (xSemaphoreGive s.CountingSem).1
          ∧ ∃ n, s.phase w = Phase.seeding (n + 1))
      ∨ ((step s w).CountingSem = (xSemaphoreTake s.CountingSem w).1
          ∧ (step s w).log.countP isGive = s.log.countP isGive)) := by
  unfold step
  split
  · exact ⟨fun u m hu => ⟨m, hu⟩, fun _ _ => rfl, Or.inl ⟨rfl, rfl⟩⟩
  · cases w
    · have hphase : ∀ (t : State) (q : Phase) (u : Worker) (m : Nat),
          (t.phase = s.phase) →
          (∀ k, q ≠ Phase.seeding (k + 1) ∨ ∃ j, s.phase Worker.HPT = Phase.seeding (j + 1)) →
          Function.update t.phase Worker.HPT q u = Phase.seeding (m + 1) →
          ∃ k, s.phase u = Phase.seeding (k + 1) := by
        intro t q u m ht hq hu
        by_cases huw : u = Worker.HPT
        · subst huw
          rw [Function.update_same] at hu
          rcases hq m with hq | hq
          · exact absurd hu hq
          · exact hq
        · rw [Function.update_noteq huw, ht] at hu
          exact ⟨m, hu⟩
      cases hp : s.phase Worker.HPT with
      | seeding n =>
        cases n with
        | zero =>
          refine ⟨?_, ?_, Or.inl ⟨?_, ?_⟩⟩
          · intro u m hu
            simp only [HPT_TASK, hp, State.setPhase] at hu
            exact hphase s _ u m rfl (fun k => Or.inl (by simp)) hu
          · intro u hu
            simp [HPT_TASK, hp, State.setPhase, Function.update_noteq hu]
          · simp [HPT_TASK, hp, State.setPhase]
          · simp [HPT_TASK, hp, State.setPhase]
        | succ n =>
          refine ⟨?_, ?_, Or.inr (Or.inl ⟨?_, n, rfl⟩)⟩
          · intro u m hu
            simp only [HPT_TASK, hp, State.setPhase, State.emit] at hu
            exact hphase _ _ u m rfl (fun k => Or.inr ⟨n, hp⟩) hu
          · intro u hu
            simp [HPT_TASK, hp, State.setPhase, State.emit, Function.update_noteq hu]
          · simp [HPT_TASK, hp, State.setPhase, State.emit]
      | entering =>
        refine ⟨?_, ?_, Or.inl ⟨?_, ?_⟩⟩
        · intro u m hu
          simp only [HPT_TASK, hp, State.setPhase, State.emit] at hu
          exact hphase _ _ u m rfl (fun k => Or.inl (by simp)) hu
        · intro u hu
          simp [HPT_TASK, hp, State.setPhase, State.emit, Function.update_noteq hu]
        · simp [HPT_TASK, hp, State.setPhase, State.emit]
        · simp [HPT_TASK, hp, State.setPhase, State.emit, List.countP_append, List.countP_cons, isGive]
      | acquiring =>
        refine ⟨?_, ?_, Or.inr (Or.inr ⟨?_, ?_⟩)⟩
        · intro u m hu
          simp only [HPT_TASK, hp, State.setPhase, State.emit] at hu
          exact hphase _ _ u m rfl (fun k => Or.inl (by split <;> simp)) hu
        · intro u hu
          simp [HPT_TASK, hp, State.setPhase, State.emit, Function.update_noteq hu]
        · simp [HPT_TASK, hp, State.setPhase, State.emit]
        · simp [HPT_TASK, hp, State.setPhase, State.emit, List.countP_append, List.countP_cons, isGive]
      | blocked =>
        refine ⟨?_, ?_, Or.inr (Or.inr ⟨?_, ?_⟩)⟩
        · intro u m hu
          simp only [HPT_TASK, hp, State.setPhase] at hu
          exact hphase _ _ u m rfl (fun k => Or.inl (by split <;> simp)) hu
        · intro u hu
          simp [HPT_TASK, hp, State.setPhase, Function.update_noteq hu]
        · simp [HPT_TASK, hp, State.setPhase]
        · simp [HPT_TASK, hp, State.setPhase]
      | holding =>
        cases hr : HPT_TASK_read s with
        | none =>
          refine ⟨?_, ?_, Or.inl ⟨?_, ?_⟩⟩
          · intro u m hu
            simp only [HPT_TASK, hp, hr] at hu
            exact ⟨m, hu⟩
          · intro u _
            simp [HPT_TASK, hp, hr]
          · simp [HPT_TASK, hp, hr]
          · simp [HPT_TASK, hp, hr]
        | some r =>
          obtain ⟨v, s1⟩ := r
          obtain ⟨hg, hph, c, hl, hc⟩ := workerRead_frame Worker.HPT s s1 v hr
          refine ⟨?_, ?_, Or.inl ⟨?_, ?_⟩⟩
          · intro u m hu
            simp only [HPT_TASK, hp, hr, State.setPhase, State.emit] at hu
            exact hphase _ _ u m hph (fun k => Or.inl (by simp)) hu
          · intro u hu
            simp [HPT_TASK, hp, hr, State.setPhase, State.emit, Function.update_noteq hu, hph]
          · simp [HPT_TASK, hp, hr, State.setPhase, State.emit, hg]
          · simp [HPT_TASK, hp, hr, State.setPhase, State.emit, hl, List.countP_append,
              List.countP_cons, hc,
              show ∀ n, isGive (Call.vTaskDelay n) = false from fun _ => rfl]
      | sleeping =>
        refine ⟨?_, ?_, Or.inl ⟨?_, ?_⟩⟩
        · intro u m hu
          simp only [HPT_TASK, hp, State.setPhase] at hu
          exact hphase _ _ u m rfl (fun k => Or.inl (by simp)) hu
        · intro u hu
          simp [HPT_TASK, hp, State.setPhase, Function.update_noteq hu]
        · simp [HPT_TASK, hp, State.setPhase]
        · simp [HPT_TASK, hp, State.setPhase]
    · have hphase : ∀ (t : State) (q : Phase) (u : Worker) (m : Nat),
          (t.phase = s.phase) →
          (∀ k, q ≠ Phase.seeding (k + 1) ∨ ∃ j, s.phase Worker.MPT = Phase.seeding (j + 1)) →
          Function.update t.phase Worker.MPT q u = Phase.seeding (m + 1) →
          ∃ k, s.phase u = Phase.seeding (k + 1) := by
        intro t q u m ht hq hu
        by_cases huw : u = Worker.MPT
        · subst huw
          rw [Function.update_same] at hu
          rcases hq m with hq | hq
          · exact absurd hu hq
          · exact hq
        · rw [Function.update_noteq huw, ht] at hu
          exact ⟨m, hu⟩
      cases hp : s.phase Worker.MPT with
      | seeding n =>
        refine ⟨?_, ?_, Or.inl ⟨?_, ?_⟩⟩
        · intro u m hu
          simp only [MPT_TASK, hp, State.setPhase] at hu
          exact hphase _ _ u m rfl (fun k => Or.inl (by simp)) hu
        · intro u hu
          simp [MPT_TASK, hp, State.setPhase, Function.update_noteq hu]
        · simp [MPT_TASK, hp, State.setPhase]
        · simp [MPT_TASK, hp, State.setPhase]
      | entering =>
        refine ⟨?_, ?_, Or.inl ⟨?_, ?_⟩⟩
        · intro u m hu
          simp only [MPT_TASK, hp, State.setPhase, State.emit] at hu
          exact hphase _ _ u m rfl (fun k => Or.inl (by simp)) hu
        · intro u hu
          simp [MPT_TASK, hp, State.setPhase, State.emit, Function.update_noteq hu]
        · simp [MPT_TASK, hp, State.setPhase, State.emit]
        · simp [MPT_TASK, hp, State.setPhase, State.emit, List.countP_append, List.countP_cons, isGive]
      | acquiring =>
        refine ⟨?_, ?_, Or.inr (Or.inr ⟨?_, ?_⟩)⟩
        · intro u m hu
          simp only [MPT_TASK, hp, State.setPhase, State.emit] at hu
          exact hphase _ _ u m rfl (fun k => Or.inl (by split <;> simp)) hu
        · intro u hu
          simp [MPT_TASK, hp, State.setPhase, State.emit, Function.update_noteq hu]
        · simp [MPT_TASK, hp, State.setPhase, State.emit]
        · simp [MPT_TASK, hp, State.setPhase, State.emit, List.countP_append, List.countP_cons, isGive]
      | blocked =>
        refine ⟨?_, ?_, Or.inr (Or.inr ⟨?_, ?_⟩)⟩
        · intro u m hu
          simp only [MPT_TASK, hp, State.setPhase] at hu
          exact hphase _ _ u m rfl (fun k => Or.inl (by split <;> simp)) hu
        · intro u hu
          simp [MPT_TASK, hp, State.setPhase, Function.update_noteq hu]
        · simp [MPT_TASK, hp, State.setPhase]
        · simp [MPT_TASK, hp, State.setPhase]
      | holding =>
        cases hr : MPT_TASK_read s with
        | none =>
          refine ⟨?_, ?_, Or.inl ⟨?_, ?_⟩⟩
          · intro u m hu
            simp only [MPT_TASK, hp, hr] at hu
            exact ⟨m, hu⟩
          · intro u _
            simp [MPT_TASK, hp, hr]
          · simp [MPT_TASK, hp, hr]
          · simp [MPT_TASK, hp, hr]
        | some r =>
          obtain ⟨v, s1⟩ := r
          obtain ⟨hg, hph, c, hl, hc⟩ := workerRead_frame Worker.MPT s s1 v hr
          refine ⟨?_, ?_, Or.inl ⟨?_, ?_⟩⟩
          · intro u m hu
            simp only [MPT_TASK, hp, hr, State.setPhase, State.emit] at hu
            exact hphase _ _ u m hph (fun k => Or.inl (by simp)) hu
          · intro u hu
            simp [MPT_TASK, hp, hr, State.setPhase, State.emit, Function.update_noteq hu, hph]
          · simp [MPT_TASK, hp, hr, State.setPhase, State.emit, hg]
          · simp [MPT_TASK, hp, hr, State.setPhase, State.emit, hl, List.countP_append,
              List.countP_cons, hc,
              show ∀ n, isGive (Call.vTaskDelay n) = false from fun _ => rfl]
      | sleeping =>
        refine ⟨?_, ?_, Or.inl ⟨?_, ?_⟩⟩
        · intro u m hu
          simp only [MPT_TASK, hp, State.setPhase] at hu
          exact hphase _ _ u m rfl (fun k => Or.inl (by simp)) hu
        · intro u hu
          simp [MPT_TASK, hp, State.setPhase, Function.update_noteq hu]
        · simp [MPT_TASK, hp, State.setPhase]
        · simp [MPT_TASK, hp, State.setPhase]
    · have hphase : ∀ (t : State) (q : Phase) (u : Worker) (m : Nat),
          (t.phase = s.phase) →
          (∀ k, q ≠ Phase.seeding (k + 1) ∨ ∃ j, s.phase Worker.LPT = Phase.seeding (j + 1)) →
          Function.update t.phase Worker.LPT q u = Phase.seeding (m + 1) →
          ∃ k, s.phase u = Phase.seeding (k + 1) := by
        intro t q u m ht hq hu
        by_cases huw : u = Worker.LPT
        · subst huw
          rw [Function.update_same] at hu
          rcases hq m with hq | hq
          · exact absurd hu hq
          · exact hq
        · rw [Function.update_noteq huw, ht] at hu
          exact ⟨m, hu⟩
      cases hp : s.phase Worker.LPT with
      | seeding n =>
        refine ⟨?_, ?_, Or.inl ⟨?_, ?_⟩⟩
        · intro u m hu
          simp only [LPT_TASK, hp, State.setPhase] at hu
          exact hphase _ _ u m rfl (fun k => Or.inl (by simp)) hu
        · intro u hu
          simp [LPT_TASK, hp, State.setPhase, Function.update_noteq hu]
        · simp [LPT_TASK, hp, State.setPhase]
        · simp [LPT_TASK, hp, State.setPhase]
      | entering =>
        refine ⟨?_, ?_, Or.inl ⟨?_, ?_⟩⟩
        · intro u m hu
          simp only [LPT_TASK, hp, State.setPhase, State.emit] at hu
          exact hphase _ _ u m rfl (fun k => Or.inl (by simp)) hu
        · intro u hu
          simp [LPT_TASK, hp, State.setPhase, State.emit, Function.update_noteq hu]
        · simp [LPT_TASK, hp, State.setPhase, State.emit]
        · simp [LPT_TASK, hp, State.setPhase, State.emit, List.countP_append, List.countP_cons, isGive]
      | acquiring =>
        refine ⟨?_, ?_, Or.inr (Or.inr ⟨?_, ?_⟩)⟩
        · intro u m hu
          simp only [LPT_TASK, hp, State.setPhase, State.emit] at hu
          exact hphase _ _ u m rfl (fun k => Or.inl (by split <;> simp)) hu
        · intro u hu
          simp [LPT_TASK, hp, State.setPhase, State.emit, Function.update_noteq hu]
        · simp [LPT_TASK, hp, State.setPhase, State.emit]
        · simp [LPT_TASK, hp, State.setPhase, State.emit, List.countP_append, List.countP_cons, isGive]
      | blocked =>
        refine ⟨?_, ?_, Or.inr (Or.inr ⟨?_, ?_⟩)⟩
        · intro u m hu
          simp only [LPT_TASK, hp, State.setPhase] at hu
          exact hphase _ _ u m rfl (fun k => Or.inl (by split <;> simp)) hu
        · intro u hu
          simp [LPT_TASK, hp, State.setPhase, Function.update_noteq hu]
        · simp [LPT_TASK, hp, State.setPhase]
        · simp [LPT_TASK, hp, State.setPhase]
      | holding =>
        cases hr : LPT_TASK_read s with
        | none =>
          refine ⟨?_, ?_, Or.inl ⟨?_, ?_⟩⟩
          · intro u m hu
            simp only [LPT_TASK, hp, hr] at hu
            exact ⟨m, hu⟩
          · intro u _
            simp [LPT_TASK, hp, hr]
          · simp [LPT_TASK, hp, hr]
          · simp [LPT_TASK, hp, hr]
        | some r =>
          obtain ⟨v, s1⟩ := r
          obtain ⟨hg, hph, c, hl, hc⟩ := workerRead_frame Worker.LPT s s1 v hr
          refine ⟨?_, ?_, Or.inl ⟨?_, ?_⟩⟩
          · intro u m hu
            simp only [LPT_TASK, hp, hr, State.setPhase, State.emit] at hu
            exact hphase _ _ u m hph (fun k => Or.inl (by simp)) hu
          · intro u hu
            simp [LPT_TASK, hp, hr, State.setPhase, State.emit, Function.update_noteq hu, hph]
          · simp [LPT_TASK, hp, hr, State.setPhase, State.emit, hg]
          · simp [LPT_TASK, hp, hr, State.setPhase, State.emit, hl, List.countP_append,
              List.countP_cons, hc,
              show ∀ n, isGive (Call.vTaskDelay n) = false from fun _ => rfl]
      | sleeping =>
        refine ⟨?_, ?_, Or.inl ⟨?_, ?_⟩⟩
        · intro u m hu
          simp only [LPT_TASK, hp, State.setPhase] at hu
          exact hphase _ _ u m rfl (fun k => Or.inl (by simp)) hu
        · intro u hu
          simp [LPT_TASK, hp, State.setPhase, Function.update_noteq hu]
        · simp [LPT_TASK, hp, State.setPhase]
        · simp [LPT_TASK, hp, State.setPhase]
    · have hphase : ∀ (t : State) (q : Phase) (u : Worker) (m : Nat),
          (t.phase = s.phase) →
          (∀ k, q ≠ Phase.seeding (k + 1) ∨ ∃ j, s.phase Worker.VLPT = Phase.seeding (j + 1)) →
          Function.update t.phase Worker.VLPT q u = Phase.seeding (m + 1) →
          ∃ k, s.phase u = Phase.seeding (k + 1) := by
        intro t q u m ht hq hu
        by_cases huw : u = Worker.VLPT
        · subst huw
          rw [Function.update_same] at hu
          rcases hq m with hq | hq
          · exact absurd hu hq
          · exact hq
        · rw [Function.update_noteq huw, ht] at hu
          exact ⟨m, hu⟩
      cases hp : s.phase Worker.VLPT with
      | seeding n =>
        refine ⟨?_, ?_, Or.inl ⟨?_, ?_⟩⟩
        · intro u m hu
          simp only [VLPT_TASK, hp, State.setPhase] at hu
          exact hphase _ _ u m rfl (fun k => Or.inl (by simp)) hu
        · intro u hu
          simp [VLPT_TASK, hp, State.setPhase, Function.update_noteq hu]
        · simp [VLPT_TASK, hp, State.setPhase]
        · simp [VLPT_TASK, hp, State.setPhase]
      | entering =>
        refine ⟨?_, ?_, Or.inl ⟨?_, ?_⟩⟩
        · intro u m hu
          simp only [VLPT_TASK, hp, State.setPhase, State.emit] at hu
          exact hphase _ _ u m rfl (fun k => Or.inl (by simp)) hu
        · intro u hu
          simp [VLPT_TASK, hp, State.setPhase, State.emit, Function.update_noteq hu]
        · simp [VLPT_TASK, hp, State.setPhase, State.emit]
        · simp [VLPT_TASK, hp, State.setPhase, State.emit, List.countP_append, List.countP_cons, isGive]
      | acquiring =>
        refine ⟨?_, ?_, Or.inr (Or.inr ⟨?_, ?_⟩)⟩
        · intro u m hu
          simp only [VLPT_TASK, hp, State.setPhase, State.emit] at hu
          exact hphase _ _ u m rfl (fun k => Or.inl (by split <;> simp)) hu
        · intro u hu
          simp [VLPT_TASK, hp, State.setPhase, State.emit, Function.update_noteq hu]
        · simp [VLPT_TASK, hp, State.setPhase, State.emit]
        · simp [VLPT_TASK, hp, State.setPhase, State.emit, List.countP_append, List.countP_cons, isGive]
      | blocked =>
        refine ⟨?_, ?_, Or.inr (Or.inr ⟨?_, ?_⟩)⟩
        · intro u m hu
          simp only [VLPT_TASK, hp, State.setPhase] at hu
          exact hphase _ _ u m rfl (fun k => Or.inl (by split <;> simp)) hu
        · intro u hu
          simp [VLPT_TASK, hp, State.setPhase, Function.update_noteq hu]
        · simp [VLPT_TASK, hp, State.setPhase]
        · simp [VLPT_TASK, hp, State.setPhase]
      | holding =>
        cases hr : VLPT_TASK_read s with
        | none =>
          refine ⟨?_, ?_, Or.inl ⟨?_, ?_⟩⟩
          · intro u m hu
            simp only [VLPT_TASK, hp, hr] at hu
            exact ⟨m, hu⟩
          · intro u _
            simp [VLPT_TASK, hp, hr]
          · simp [VLPT_TASK, hp, hr]
          · simp [VLPT_TASK, hp, hr]
        | some r =>
          obtain ⟨v, s1⟩ := r
          obtain ⟨hg, hph, c, hl, hc⟩ := workerRead_frame Worker.VLPT s s1 v hr
          refine ⟨?_, ?_, Or.inl ⟨?_, ?_⟩⟩
          · intro u m hu
            simp only [VLPT_TASK, hp, hr, State.setPhase, State.emit] at hu
            exact hphase _ _ u m hph (fun k => Or.inl (by simp)) hu
          · intro u hu
            simp [VLPT_TASK, hp, hr, State.setPhase, State.emit, Function.update_noteq hu, hph]
          · simp [VLPT_TASK, hp, hr, State.setPhase, State.emit, hg]
          · simp [VLPT_TASK, hp, hr, State.setPhase, State.emit, hl, List.countP_append,
              List.countP_cons, hc,
              show ∀ n, isGive (Call.vTaskDelay n) = false from fun _ => rfl]
      | sleeping =>
        refine ⟨?_, ?_, Or.inl ⟨?_, ?_⟩⟩
        · intro u m hu
          simp only [VLPT_TASK, hp, State.setPhase] at hu
          exact hphase _ _ u m rfl (fun k => Or.inl (by simp)) hu
        · intro u hu
          simp [VLPT_TASK, hp, State.setPhase, Function.update_noteq hu]
        · simp [VLPT_TASK, hp, State.setPhase]
        · simp [VLPT_TASK, hp, State.setPhase]

/-- Every event of a run keeps the guard well-formed. -/
theorem exec_inv (s : State) (e : Step) (h : GuardInv s.CountingSem) :
    GuardInv (exec s e).CountingSem := by
  cases e with
  | run w =>
    rcases (step_effect s w).2.2 with hs | hs | hs
    · simp only [exec, hs.1]
      exact h
    · simp only [exec, hs.1]
      exact give_inv _ h
    · simp only [exec, hs.1]
      exact take_inv _ _ h
  | byte b p =>
    simp only [exec, (guard_receiveByte_eq s b p).2.1]
    split
    · rw [giveFromISR3_fst]
      exact give_inv _ (give_inv _ (give_inv _ h))
    · exact h

/-- Every run keeps the guard well-formed. -/
theorem execAll_inv (steps : List Step) (s : State) (h : GuardInv s.CountingSem) :
    GuardInv (execAll s steps).CountingSem := by
  induction steps generalizing s with
  | nil => exact h
  | cons e es ih => exact ih (exec s e) (exec_inv s e h)

/-- C5: after every sequence of worker steps and received bytes from the
start state (capacity 3, count 0) the permit count is in [0, 3].  A burst
arriving at count `c` in [0, 3] with no waiter leaves the count at
min (c + 3, 3).  A burst arriving at count 0 with exactly one blocked waiter
removes that waiter from the wait-set at its first release and leaves the
count at 3, of which the woken waiter is then granted one. -/
theorem C5_permit_count_bounded (steps : List Step) (s : State) (p : Nat) (c : Int)
    (w : Worker) (hc0 : 0 ≤ c) (hc3 : c ≤ 3) :
    (0 ≤ (execAll start steps).CountingSem.count
      ∧ (execAll start steps).CountingSem.count ≤ 3)
    ∧ (receiveByte { s with CountingSem := { capacity := 3, count := c, waiters := [] } }
          triggerByte p).CountingSem
        = { capacity := 3, count := min (c + 3) 3, waiters := [] }
    ∧ (xSemaphoreGiveFromISR { capacity := 3, count := 0, waiters := [w] } p false).1
        = { capacity := 3, count := 1, waiters := [] }
    ∧ (receiveByte { s with CountingSem := { capacity := 3, count := 0, waiters := [w] } }
          triggerByte p).CountingSem
        = { capacity := 3, count := 3, waiters := [] }
    ∧ xSemaphoreTake { capacity := 3, count := 3, waiters := [] } w
        = ({ capacity := 3, count := 2, waiters := [] }, true) := by
  refine ⟨?_, ?_, ?_, ?_, ?_⟩
  · have h := execAll_inv steps start ⟨rfl, by decide, by decide⟩
    exact ⟨h.2.1, h.2.2⟩
  · have hc : c = 0 ∨ c = 1 ∨ c = 2 ∨ c = 3 := by omega
    rw [(guard_receiveByte_eq _ triggerByte p).2.1, if_pos rfl, giveFromISR3_fst]
    dsimp only
    rcases hc with hc | hc | hc | hc <;> subst hc <;> decide
  · rw [giveFromISR_fst]
    cases w <;> decide
  · rw [(guard_receiveByte_eq _ triggerByte p).2.1, if_pos rfl, giveFromISR3_fst]
    dsimp only
    cases w <;> decide
  · cases w <;> decide

/-- Witness for C5: the seeding, a burst at count 1, and `VLPT_TASK` as the
single waiter. -/
theorem C5_permit_count_bounded_witness :
    (0 ≤ (execAll start [Step.run Worker.HPT, Step.byte 114 0, Step.run Worker.HPT]).CountingSem.count
      ∧ (execAll start [Step.run Worker.HPT, Step.byte 114 0, Step.run Worker.HPT]).CountingSem.count ≤ 3)
    ∧ (receiveByte { start with CountingSem := { capacity := 3, count := 1, waiters := [] } }
          triggerByte 0).CountingSem
        = { capacity := 3, count := min (1 + 3) 3, waiters := [] }
    ∧ (xSemaphoreGiveFromISR { capacity := 3, count := 0, waiters := [Worker.VLPT] } 0 false).1
        = { capacity := 3, count := 1, waiters := [] }
    ∧ (receiveByte { start with CountingSem := { capacity := 3, count := 0, waiters := [Worker.VLPT] } }
          triggerByte 0).CountingSem
        = { capacity := 3, count := 3, waiters := [] }
    ∧ xSemaphoreTake { capacity := 3, count := 3, waiters := [] } Worker.VLPT
        = ({ capacity := 3, count := 2, waiters := [] }, true) :=
  C5_permit_count_bounded [Step.run Worker.HPT, Step.byte 114 0, Step.run Worker.HPT] start 0 1
    Worker.VLPT (by decide) (by decide)

/-- With no permit left an acquire grants nothing: the count stays 0 and every
waiter stays in the wait-set. -/
theorem take_zero (g : CountingGuard) (t : Worker) (h : g.count = 0) :
    (xSemaphoreTake g t).1.count = 0
    ∧ ∀ u, u ∈ g.waiters → u ∈ (xSemaphoreTake g t).1.waiters := by
  have hn : ¬ 0 < g.count := by omega
  simp only [xSemaphoreTake, hn, if_false]
  refine ⟨h, fun u hu => ?_⟩
  split
  · exact hu
  · exact List.mem_append_left _ hu

/-- A worker steps and non-trigger bytes cannot end the starvation. -/
theorem starved_exec (s : State) (e : Step) (h : Starved s)
    (hq : ∀ b q, e = Step.byte b q → b ≠ triggerByte) : Starved (exec s e) := by
  obtain ⟨hc, hw, hs, hv, hl⟩ := h
  cases e with
  | run w =>
    obtain ⟨h1, h2, h3⟩ := step_effect s w
    have hseed : ∀ u n, (step s w).phase u ≠ Phase.seeding (n + 1) := by
      intro u n hu
      obtain ⟨k, hk⟩ := h1 u n hu
      exact hs u k hk
    have hvl : (step s w).phase Worker.VLPT = Phase.blocked := by
      by_cases hwv : w = Worker.VLPT
      · subst hwv
        simp only [step, hw, if_true]
        exact hv
      · rw [h2 Worker.VLPT (fun e => hwv e.symm)]
        exact hv
    rcases h3 with h3 | h3 | h3
    · exact ⟨by simp only [exec, h3.1]; exact hc, by simp only [exec, h3.1]; exact hw, hseed,
        hvl, by simp only [exec, h3.2]; exact hl⟩
    · obtain ⟨n, hn⟩ := h3.2
      exact absurd hn (hs w n)
    · obtain ⟨t1, t2⟩ := take_zero s.CountingSem w hc
      exact ⟨by simp only [exec, h3.1]; exact t1,
        by simp only [exec, h3.1]; exact t2 _ hw, hseed, hvl,
        by simp only [exec, h3.2]; exact hl⟩
  | byte b q =>
    have hb : b ≠ triggerByte := hq b q rfl
    obtain ⟨r1, r2, r3, _⟩ := guard_receiveByte_eq s b q
    rw [if_neg hb] at r1 r2
    refine ⟨by simp only [exec, r2]; exact hc, by simp only [exec, r2]; exact hw, ?_, ?_, ?_⟩
    · simp only [exec, r3]
      exact hs
    · simp only [exec, r3]
      exact hv
    · simp only [exec, r1, List.countP_append]
      simpa [List.countP_cons, isGive] using hl

/-- No run of worker steps and non-trigger bytes ends the starvation. -/
theorem starved_execAll (steps : List Step) (s : State) (h : Starved s)
    (hq : ∀ b q, Step.byte b q ∈ steps → b ≠ triggerByte) : Starved (execAll s steps) := by
  induction steps generalizing s with
  | nil => exact h
  | cons e es ih =>
    refine ih (exec s e) (starved_exec s e h ?_) ?_
    · intro b q he
      exact hq b q (by rw [he]; exact List.mem_cons_self _ _)
    · intro b q he
      exact hq b q (List.mem_cons_of_mem _ he)

/-- A woken worker inside its take is granted a permit when one is available. -/
theorem step_blocked_granted (s : State) (w : Worker) (hw : w ∉ s.CountingSem.waiters)
    (hp : s.phase w = Phase.blocked) (hc : 0 < s.CountingSem.count) :
    (step s w).phase w = Phase.holding
    ∧ (step s w).CountingSem.count = s.CountingSem.count - 1 := by
  cases w <;>
    simp [step, hw, HPT_TASK, MPT_TASK, LPT_TASK, VLPT_TASK, hp, xSemaphoreTake, hc,
      State.setPhase]

/-- The start-up run ends in the starved situation. -/
theorem startup_starved : Starved startup := by
  refine ⟨by decide, by decide, ?_, by decide, by decide⟩
  intro u n
  have h1 : startup.phase Worker.HPT = Phase.sleeping := by decide
  have h2 : startup.phase Worker.MPT = Phase.sleeping := by decide
  have h3 : startup.phase Worker.LPT = Phase.sleeping := by decide
  have h4 : startup.phase Worker.VLPT = Phase.blocked := by decide
  cases u
  · rw [h1]
    exact fun e => Phase.noConfusion e
  · rw [h2]
    exact fun e => Phase.noConfusion e
  · rw [h3]
    exact fun e => Phase.noConfusion e
  · rw [h4]
    exact fun e => Phase.noConfusion e

/-- C8: the start-up run.  Its call log opens with the three `xSemaphoreGive`
of `HPT_TASK`, which then reports 3 tokens; the takes of `HPT_TASK`,
`MPT_TASK` and `LPT_TASK` return (each worker reports its read and sleeps,
the count going 3, 2, 1, 0) and the take of `VLPT_TASK` does not: it ends in
the wait-set.  Every worker is then suspended.  Whatever worker steps and
non-trigger bytes follow, the count stays 0, `VLPT_TASK` stays in the wait-set
inside its take, and no further `xSemaphoreGive` is logged.  A burst right
after the start-up run empties the wait-set, and `VLPT_TASK` is then granted
a permit. -/
theorem C8_startup_run (steps : List Step) (p : Nat)
    (hquiet : ∀ b q, Step.byte b q ∈ steps → b ≠ triggerByte) :
    startup.log =
      [Call.xSemaphoreGive, Call.xSemaphoreGive, Call.xSemaphoreGive,
        Call.uxSemaphoreGetCount,
        Call.HAL_UART_Transmit
          "Entered HPT Task\n About to ACQUIRE the Semaphore\n Tokens available are: 3\n\n"
          75 HAL_MAX_DELAY,
        Call.xSemaphoreTake portMAX_DELAY,
        Call.HAL_UART_Transmit
          "Leaving HPT Task\n Data ACCESSED is:: 111\n Not releasing the Semaphore\n\n\n"
          72 HAL_MAX_DELAY,
        Call.vTaskDelay 3000,
        Call.HAL_UART_Transmit "Entered MPT Task\n About to ACQUIRE the Semaphore\n "
          50 HAL_MAX_DELAY,
        Call.xSemaphoreTake portMAX_DELAY,
        Call.HAL_UART_Transmit
          "Leaving MPT Task\n Data ACCESSED is:: 222\n Not releasing the Semaphore\n\n\n"
          72 HAL_MAX_DELAY,
        Call.vTaskDelay 3000,
        Call.HAL_UART_Transmit "Entered LPT Task\n About to ACQUIRE the Semaphore\n "
          50 HAL_MAX_DELAY,
        Call.xSemaphoreTake portMAX_DELAY,
        Call.HAL_UART_Transmit
          "Leaving LPT Task\n Data ACCESSED is:: 333\n Not releasing the Semaphore\n\n\n"
          72 HAL_MAX_DELAY,
        Call.vTaskDelay 2000,
        Call.HAL_UART_Transmit "Entered VLPT Task\n About to ACQUIRE the Semaphore\n "
          51 HAL_MAX_DELAY,
        Call.xSemaphoreTake portMAX_DELAY]
    ∧ (startupUpTo [Worker.HPT]).CountingSem = { capacity := 3, count := 2, waiters := [] }
    ∧ (startupUpTo [Worker.HPT, Worker.MPT]).CountingSem
        = { capacity := 3, count := 1, waiters := [] }
    ∧ (startupUpTo [Worker.HPT, Worker.MPT, Worker.LPT]).CountingSem
        = { capacity := 3, count := 0, waiters := [] }
    ∧ startup.CountingSem = { capacity := 3, count := 0, waiters := [Worker.VLPT] }
    ∧ [Worker.HPT, Worker.MPT, Worker.LPT, Worker.VLPT].map startup.phase
        = [Phase.sleeping, Phase.sleeping, Phase.sleeping, Phase.blocked]
    ∧ [Worker.HPT, Worker.MPT, Worker.LPT, Worker.VLPT].map (suspended startup)
        = [true, true, true, true]
    ∧ ((execAll startup steps).CountingSem.count = 0
        ∧ Worker.VLPT ∈ (execAll startup steps).CountingSem.waiters
        ∧ (execAll startup steps).phase Worker.VLPT = Phase.blocked
        ∧ (execAll startup steps).log.countP isGive = 3)
    ∧ (receiveByte startup triggerByte p).CountingSem
        = { capacity := 3, count := 3, waiters := [] }
    ∧ (step (receiveByte startup triggerByte p) Worker.VLPT).phase Worker.VLPT = Phase.holding
    ∧ (step (receiveByte startup triggerByte p) Worker.VLPT).CountingSem.count = 2 := by
  have hburst : (receiveByte startup triggerByte p).CountingSem
      = { capacity := 3, count := 3, waiters := [] } := by
    rw [(guard_receiveByte_eq startup triggerByte p).2.1, if_pos rfl, giveFromISR3_fst]
    decide
  have hgrant := step_blocked_granted (receiveByte startup triggerByte p) Worker.VLPT
    (by rw [hburst]; decide)
    (by rw [(guard_receiveByte_eq startup triggerByte p).2.2.1]; decide)
    (by rw [hburst]; decide)
  obtain ⟨s1, s2, _, s4, s5⟩ := starved_execAll steps startup startup_starved hquiet
  refine ⟨by decide, by decide, by decide, by decide, by decide, by decide, by decide,
    ⟨s1, s2, s4, s5⟩, hburst, hgrant.1, ?_⟩
  rw [hgrant.2, hburst]
  decide

/-- Witness for C8: after the start-up run `HPT_TASK` wakes and tries again,
a byte other than the trigger arrives, and `VLPT_TASK` is scheduled. -/
theorem C8_startup_run_witness :
    (execAll startup
        [Step.run Worker.HPT, Step.run Worker.HPT, Step.byte 120 3, Step.run Worker.HPT,
          Step.run Worker.VLPT]).CountingSem.count = 0
    ∧ Worker.VLPT ∈ (execAll startup
        [Step.run Worker.HPT, Step.run Worker.HPT, Step.byte 120 3, Step.run Worker.HPT,
          Step.run Worker.VLPT]).CountingSem.waiters
    ∧ (step (receiveByte startup triggerByte 0) Worker.VLPT).phase Worker.VLPT
        = Phase.holding :=
  have h := C8_startup_run
    [Step.run Worker.HPT, Step.run Worker.HPT, Step.byte 120 3, Step.run Worker.HPT,
      Step.run Worker.VLPT] 0 (by
        intro b q hb
        simp at hb
        rw [hb.1]
        decide)
  ⟨h.2.2.2.2.2.2.2.1.1, h.2.2.2.2.2.2.2.1.2.1, h.2.2.2.2.2.2.2.2.2.1⟩

end CountingSemaphore

namespace SimpleQueue

/-- A send-to-front on a channel with a free slot succeeds and puts the
message ahead of the queued ones. -/
theorem sendToFront_free (ch : BoundedChannel) (u : Int) (p : Nat) (f : Bool)
    (h : ch.items.length < ch.capacity) :
    (xQueueSendToFrontFromISR ch u p f).2.1 = true
    ∧ (xQueueSendToFrontFromISR ch u p f).1.items = u :: ch.items
    ∧ (xQueueSendToFrontFromISR ch u p f).1.capacity = ch.capacity := by
  cases hw : pickWaiter Task.priority ch.receivers <;>
    simp [xQueueSendToFrontFromISR, h, hw]

/-- A send-to-front on a full channel fails and leaves the channel as it was. -/
theorem sendToFront_full (ch : BoundedChannel) (u : Int) (p : Nat) (f : Bool)
    (h : ¬ ch.items.length < ch.capacity) :
    xQueueSendToFrontFromISR ch u p f = (ch, false, f) := by
  simp [xQueueSendToFrontFromISR, h]

/-- Receives return the queued messages from the head, in order. -/
theorem receiveN_items (t : Task) (ms rest : List Int) (ch : BoundedChannel)
    (h : ch.items = ms ++ rest) :
    ∃ ch1, receiveN t ms.length ch = some (ms, ch1) ∧ ch1.items = rest
      ∧ ch1.capacity = ch.capacity := by
  induction ms generalizing ch with
  | nil => exact ⟨ch, rfl, by simpa using h, rfl⟩
  | cons m ms ih =>
    have hr : (xQueueReceive ch t).2 = some m ∧ (xQueueReceive ch t).1.items = ms ++ rest
        ∧ (xQueueReceive ch t).1.capacity = ch.capacity := by
      simp [xQueueReceive, h]
    obtain ⟨ch1, h1, h2, h3⟩ := ih (xQueueReceive ch t).1 hr.2.1
    refine ⟨ch1, ?_, h2, by rw [h3, hr.2.2]⟩
    have hpair : xQueueReceive ch t = ((xQueueReceive ch t).1, some m) := by
      rw [← hr.1]
    simp only [List.length_cons, receiveN]
    rw [hpair]
    simp [h1]

/-- Sends that find room append the messages at the tail, in order. -/
theorem sendAll_items (t : Task) (vs : List Int) (ch : BoundedChannel)
    (h : ch.items.length + vs.length ≤ ch.capacity) :
    ∃ ch1, sendAll t ch vs = some ch1 ∧ ch1.items = ch.items ++ vs
      ∧ ch1.capacity = ch.capacity := by
  induction vs generalizing ch with
  | nil => exact ⟨ch, rfl, by simp, rfl⟩
  | cons v vs ih =>
    have hlt : ch.items.length < ch.capacity := by
      simp only [List.length_cons] at h
      omega
    have hs : (xQueueSend ch t v).2 = true ∧ (xQueueSend ch t v).1.items = ch.items ++ [v]
        ∧ (xQueueSend ch t v).1.capacity = ch.capacity := by
      simp [xQueueSend, hlt]
    obtain ⟨ch1, h1, h2, h3⟩ := ih (xQueueSend ch t v).1 (by
      rw [hs.2.1, hs.2.2]
      simp only [List.length_append, List.length_cons, List.length_nil] at h ⊢
      omega)
    refine ⟨ch1, ?_, by rw [h2, hs.2.1]; simp, by rw [h3, hs.2.2]⟩
    have hpair : xQueueSend ch t v = ((xQueueSend ch t v).1, true) := by
      rw [← hs.1]
    simp only [sendAll]
    rw [hpair]
    simp [h1]

/-- C6: on a channel of capacity 5 holding `ms` (fewer than 5 messages), a
send-to-front of `u` succeeds and the next `|ms| + 1` receives return `u`
followed by `ms` in order; the handler does so with its value 123456789 on
the trigger byte; after sends of 111 and 222 and an urgent insert of 999 the
receives return 999, 111, 222; and with no urgent insert, up to 5 sends into
the empty channel are received in send order. -/
theorem C6_urgent_insert_first (ms vs : List Int) (u : Int) (p : Nat) (t : Task)
    (rs ss : List Task) (s : State) (hk : ms.length < 5) (hv : vs.length ≤ 5) :
    (xQueueSendToFrontFromISR
        { capacity := 5, items := ms, receivers := rs, senders := ss } u p false).2.1 = true
    ∧ (∃ ch1, receiveN Task.Receiver (ms.length + 1)
          (xQueueSendToFrontFromISR
            { capacity := 5, items := ms, receivers := rs, senders := ss } u p false).1
          = some (u :: ms, ch1))
    ∧ (∃ ch1, receiveN Task.Receiver (ms.length + 1)
          (receiveByte
            { s with SimpleQueue := { capacity := 5, items := ms, receivers := rs, senders := ss } }
            triggerByte p).SimpleQueue
          = some (123456789 :: ms, ch1))
    ∧ (∃ ch1 ch2,
          sendAll t { capacity := 5, items := [], receivers := [], senders := [] } [111, 222]
            = some ch1
          ∧ receiveN Task.Receiver 3 (xQueueSendToFrontFromISR ch1 999 p false).1
            = some ([999, 111, 222], ch2))
    ∧ (∃ ch1 ch2,
          sendAll t { capacity := 5, items := [], receivers := [], senders := [] } vs = some ch1
          ∧ receiveN Task.Receiver vs.length ch1 = some (vs, ch2)) := by
  have hfree : ∀ (v : Int),
      (xQueueSendToFrontFromISR
          { capacity := 5, items := ms, receivers := rs, senders := ss } v p false).2.1 = true
      ∧ ∃ ch1, receiveN Task.Receiver (ms.length + 1)
          (xQueueSendToFrontFromISR
            { capacity := 5, items := ms, receivers := rs, senders := ss } v p false).1
          = some (v :: ms, ch1) := by
    intro v
    obtain ⟨h1, h2, _⟩ := sendToFront_free
      { capacity := 5, items := ms, receivers := rs, senders := ss } v p false hk
    obtain ⟨ch1, h3, _, _⟩ := receiveN_items Task.Receiver (v :: ms) [] _ (by simpa using h2)
    exact ⟨h1, ch1, by simpa using h3⟩
  refine ⟨(hfree u).1, (hfree u).2, ?_, ?_, ?_⟩
  · rw [(channel_receiveByte_eq _ triggerByte p).2, if_pos rfl]
    exact (hfree 123456789).2
  · obtain ⟨ch1, h1, h2, h3⟩ := sendAll_items t [111, 222]
      { capacity := 5, items := [], receivers := [], senders := [] } (by decide)
    obtain ⟨_, h5, _⟩ := sendToFront_free ch1 999 p false (by rw [h2, h3]; decide)
    obtain ⟨ch2, h6, _, _⟩ := receiveN_items Task.Receiver [999, 111, 222] [] _
      (by rw [h5, h2]; rfl)
    exact ⟨ch1, ch2, h1, h6⟩
  · obtain ⟨ch1, h1, h2, _⟩ := sendAll_items t vs
      { capacity := 5, items := [], receivers := [], senders := [] } (by simpa using hv)
    obtain ⟨ch2, h6, _, _⟩ := receiveN_items Task.Receiver vs [] ch1 (by simpa using h2)
    exact ⟨ch1, ch2, h1, h6⟩

/-- Witness for C6: the channel holding 111 and 222, the urgent value 999. -/
theorem C6_urgent_insert_first_witness :
    (xQueueSendToFrontFromISR
        { capacity := 5, items := [111, 222], receivers := [], senders := [] } 999 0 false).2.1
      = true
    ∧ (∃ ch1, receiveN Task.Receiver ([111, 222].length + 1)
          (xQueueSendToFrontFromISR
            { capacity := 5, items := [111, 222], receivers := [], senders := [] } 999 0 false).1
          = some (999 :: [111, 222], ch1))
    ∧ (∃ ch1, receiveN Task.Receiver ([111, 222].length + 1)
          (receiveByte
            { initial { capacity := 5, items := [], receivers := [], senders := [] } with
              SimpleQueue := { capacity := 5, items := [111, 222], receivers := [], senders := [] } }
            triggerByte 0).SimpleQueue
          = some (123456789 :: [111, 222], ch1))
    ∧ (∃ ch1 ch2,
          sendAll Task.Sender_LPT { capacity := 5, items := [], receivers := [], senders := [] }
            [111, 222] = some ch1
          ∧ receiveN Task.Receiver 3 (xQueueSendToFrontFromISR ch1 999 0 false).1
            = some ([999, 111, 222], ch2))
    ∧ (∃ ch1 ch2,
          sendAll Task.Sender_LPT { capacity := 5, items := [], receivers := [], senders := [] }
            [111, 222, 111] = some ch1
          ∧ receiveN Task.Receiver [111, 222, 111].length ch1 = some ([111, 222, 111], ch2)) :=
  C6_urgent_insert_first [111, 222] [111, 222, 111] 999 0 Task.Sender_LPT [] []
    (initial { capacity := 5, items := [], receivers := [], senders := [] })
    (by decide) (by decide)

/-- C7: when the channel of capacity 5 holds 5 messages and the trigger byte
arrives, the handler's send-to-front fails, the channel (contents, occupancy
5, wait-sets) is left exactly as it was, and the handler's calls are the
re-arm, that single attempt, the failure report and the reschedule request:
no second insert attempt. -/
theorem C7_full_channel_drops_urgent (ms : List Int) (rs ss : List Task) (s : State)
    (p : Nat) (hfull : ms.length = 5) :
    (xQueueSendToFrontFromISR
        { capacity := 5, items := ms, receivers := rs, senders := ss } 123456789 p false).2.1
      = false
    ∧ (receiveByte
          { s with SimpleQueue := { capacity := 5, items := ms, receivers := rs, senders := ss } }
          triggerByte p).SimpleQueue
        = { capacity := 5, items := ms, receivers := rs, senders := ss }
    ∧ (receiveByte
          { s with SimpleQueue := { capacity := 5, items := ms, receivers := rs, senders := ss } }
          triggerByte p).SimpleQueue.items.length = 5
    ∧ (receiveByte
          { s with SimpleQueue := { capacity := 5, items := ms, receivers := rs, senders := ss } }
          triggerByte p).log
        = s.log ++ [Call.HAL_UART_Receive_IT 1, Call.xQueueSendToFrontFromISR 123456789,
            Call.HAL_UART_Transmit "QUEUE NULL!\n" 12 100, Call.portYIELD_FROM_ISR false]
    ∧ ((receiveByte
          { s with SimpleQueue := { capacity := 5, items := ms, receivers := rs, senders := ss } }
          triggerByte p).log.drop s.log.length).countP isSendToFront = 1 := by
  have hf := sendToFront_full
    { capacity := 5, items := ms, receivers := rs, senders := ss } 123456789 p false
    (by simp [hfull])
  have hlog : (receiveByte
          { s with SimpleQueue := { capacity := 5, items := ms, receivers := rs, senders := ss } }
          triggerByte p).log
        = s.log ++ [Call.HAL_UART_Receive_IT 1, Call.xQueueSendToFrontFromISR 123456789,
            Call.HAL_UART_Transmit "QUEUE NULL!\n" 12 100, Call.portYIELD_FROM_ISR false] := by
    rw [(channel_receiveByte_eq _ triggerByte p).1, if_pos rfl]
    simp [hf]
  have hch : (receiveByte
          { s with SimpleQueue := { capacity := 5, items := ms, receivers := rs, senders := ss } }
          triggerByte p).SimpleQueue
        = { capacity := 5, items := ms, receivers := rs, senders := ss } := by
    rw [(channel_receiveByte_eq _ triggerByte p).2, if_pos rfl]
    simp [hf]
  refine ⟨by rw [hf], hch, by rw [hch]; exact hfull, hlog, ?_⟩
  rw [hlog, List.drop_left]
  decide

/-- Witness for C7: a channel filled by the two senders. -/
theorem C7_full_channel_drops_urgent_witness :
    (xQueueSendToFrontFromISR
        { capacity := 5, items := [222, 111, 222, 111, 222], receivers := [], senders := [] }
        123456789 0 false).2.1
      = false
    ∧ (receiveByte
          { initial { capacity := 5, items := [], receivers := [], senders := [] } with
            SimpleQueue :=
              { capacity := 5, items := [222, 111, 222, 111, 222], receivers := [],
                senders := [] } }
          triggerByte 0).SimpleQueue
        = { capacity := 5, items := [222, 111, 222, 111, 222], receivers := [], senders := [] }
    ∧ (receiveByte
          { initial { capacity := 5, items := [], receivers := [], senders := [] } with
            SimpleQueue :=
              { capacity := 5, items := [222, 111, 222, 111, 222], receivers := [],
                senders := [] } }
          triggerByte 0).SimpleQueue.items.length = 5
    ∧ (receiveByte
          { initial { capacity := 5, items := [], receivers := [], senders := [] } with
            SimpleQueue :=
              { capacity := 5, items := [222, 111, 222, 111, 222], receivers := [],
                senders := [] } }
          triggerByte 0).log
        = (initial { capacity := 5, items := [], receivers := [], senders := [] }).log
          ++ [Call.HAL_UART_Receive_IT 1, Call.xQueueSendToFrontFromISR 123456789,
            Call.HAL_UART_Transmit "QUEUE NULL!\n" 12 100, Call.portYIELD_FROM_ISR false]
    ∧ ((receiveByte
          { initial { capacity := 5, items := [], receivers := [], senders := [] } with
            SimpleQueue :=
              { capacity := 5, items := [222, 111, 222, 111, 222], receivers := [],
                senders := [] } }
          triggerByte 0).log.drop
            (initial { capacity := 5, items := [], receivers := [], senders := [] }).log.length
        ).countP isSendToFront = 1 :=
  C7_full_channel_drops_urgent [222, 111, 222, 111, 222] [] []
    (initial { capacity := 5, items := [], receivers := [], senders := [] }) 0 (by decide)

end SimpleQueue

/-- C9, as stated, fails: on the trigger byte the handler of the channel demo
calls the polling `HAL_UART_Transmit` with a timeout of 500 (insert done) or
100 (channel full). -/
theorem C9_counterexample :
    (SimpleQueue.receiveByte
        (SimpleQueue.initial { capacity := 5, items := [], receivers := [], senders := [] })
        triggerByte 0).log
      = [Call.HAL_UART_Receive_IT 1, Call.xQueueSendToFrontFromISR 123456789,
          Call.HAL_UART_Transmit "\n\nSent from ISR\n\n" 17 500, Call.portYIELD_FROM_ISR false]
    ∧ (Call.HAL_UART_Transmit "\n\nSent from ISR\n\n" 17 500).canWait = true
    ∧ (SimpleQueue.receiveByte
        (SimpleQueue.initial { capacity := 5, items := [], receivers := [], senders := [] })
        triggerByte 0).log.any Call.canWait = true
    ∧ (SimpleQueue.receiveByte
        (SimpleQueue.initial
          { capacity := 5, items := [1, 2, 3, 4, 5], receivers := [], senders := [] })
        triggerByte 0).log.any Call.canWait = true := by
  refine ⟨?_, ?_, ?_, ?_⟩ <;> decide

/-- C9, amended: for every received byte no call of the guard demo's handler
can wait; in the channel demo's handler no call can wait for a byte other
than the trigger, and on the trigger byte the calls that can wait are exactly
one polling transmit with a finite timeout: the 17-byte report with timeout
500 after a successful insert, the 12-byte report with timeout 100 after a
failed one. -/
theorem C9_handlers_wait_only_in_report (sg : CountingSemaphore.State)
    (sq : SimpleQueue.State) (b p : Nat) :
    ((CountingSemaphore.receiveByte sg b p).log.drop sg.log.length).any Call.canWait = false
    ∧ ((SimpleQueue.receiveByte sq b p).log.drop sq.log.length).filter Call.canWait
        = (if b = triggerByte then
            [if (SimpleQueue.xQueueSendToFrontFromISR sq.SimpleQueue 123456789 p false).2.1
              then Call.HAL_UART_Transmit "\n\nSent from ISR\n\n" 17 500
              else Call.HAL_UART_Transmit "QUEUE NULL!\n" 12 100]
          else []) := by
  constructor
  · rw [(guard_receiveByte_eq sg b p).1, List.drop_left]
    by_cases h : b = triggerByte
    · simp [h, Call.canWait, Call.waitArgument]
    · simp [h, Call.canWait, Call.waitArgument]
  · rw [(channel_receiveByte_eq sq b p).1, List.drop_left]
    by_cases h : b = triggerByte
    · by_cases hk :
        (SimpleQueue.xQueueSendToFrontFromISR sq.SimpleQueue 123456789 p false).2.1
      · simp [h, hk, Call.canWait, Call.waitArgument, List.filter_cons]
      · simp [h, hk, Call.canWait, Call.waitArgument, List.filter_cons]
    · simp [h, Call.canWait, Call.waitArgument, List.filter_cons]

/-- C10, as stated, fails: at a tick rate of 1000 Hz the producer whose value
comes from its task argument (111) sleeps 1000 ticks and the fixed-value
producer (222) sleeps 2000 ticks, so the former does not sleep longer. -/
theorem C10_counterexample :
    SimpleQueue.Sender_LPT_value SimpleQueue.Sender_LPT_argument = 111
    ∧ SimpleQueue.Sender_HPT_value = 222
    ∧ SimpleQueue.Sender_LPT_TickDelay (pdMS_TO_TICKS 1000) = 1000
    ∧ SimpleQueue.Sender_HPT_TickDelay (pdMS_TO_TICKS 1000) = 2000
    ∧ ¬ (SimpleQueue.Sender_HPT_TickDelay (pdMS_TO_TICKS 1000)
          < SimpleQueue.Sender_LPT_TickDelay (pdMS_TO_TICKS 1000)) := by
  refine ⟨?_, ?_, ?_, ?_, ?_⟩ <;> decide

/-- C10, amended: the producer whose value 111 comes from its task argument
(`Sender_LPT_Task`) is the faster one.  Its sleep argument is 1000 ms against
2000 ms for the fixed-value producer (`Sender_HPT_Task`, value 222), and for
every tick rate (positive, with 2000 ms representable in 32-bit ticks) its
sleep is strictly shorter in ticks; these are the delays the two task
functions pass to `vTaskDelay` after their send. -/
theorem C10_parameterised_producer_is_faster (configTICK_RATE_HZ : Nat)
    (hpos : 0 < configTICK_RATE_HZ) (hfit : 2000 * configTICK_RATE_HZ < 2 ^ 32) :
    SimpleQueue.Sender_LPT_value SimpleQueue.Sender_LPT_argument = 111
    ∧ SimpleQueue.Sender_HPT_value = 222
    ∧ SimpleQueue.Sender_LPT_TickDelay id = 1000
    ∧ SimpleQueue.Sender_HPT_TickDelay id = 2000
    ∧ SimpleQueue.Sender_LPT_TickDelay (pdMS_TO_TICKS configTICK_RATE_HZ)
        < SimpleQueue.Sender_HPT_TickDelay (pdMS_TO_TICKS configTICK_RATE_HZ)
    ∧ (SimpleQueue.step id
          (SimpleQueue.step id
            (SimpleQueue.initial { capacity := 5, items := [], receivers := [], senders := [] })
            SimpleQueue.Task.Sender_LPT)
          SimpleQueue.Task.Sender_LPT).log
        = [Call.HAL_UART_Transmit
              " Entered SENDER_LPT task\n About to send a number to the queue" 61 HAL_MAX_DELAY,
            Call.xQueueSend 111 portMAX_DELAY,
            Call.HAL_UART_Transmit
              " Successfully sent the number to the queue\nLeaving SENDER_LPT Task\n\n\n"
              69 HAL_MAX_DELAY,
            Call.vTaskDelay 1000]
    ∧ (SimpleQueue.step id
          (SimpleQueue.step id
            (SimpleQueue.initial { capacity := 5, items := [], receivers := [], senders := [] })
            SimpleQueue.Task.Sender_HPT)
          SimpleQueue.Task.Sender_HPT).log
        = [Call.xQueueSend 222 portMAX_DELAY,
            Call.HAL_UART_Transmit
              " Successfully sent the number to the queue\nLeaving SENDER_HPT Task\n\n\n"
              69 HAL_MAX_DELAY,
            Call.vTaskDelay 2000] := by
  refine ⟨by decide, by decide, by decide, by decide, ?_, by decide, by decide⟩
  have h1 : 1000 * configTICK_RATE_HZ % 2 ^ 32 = 1000 * configTICK_RATE_HZ :=
    Nat.mod_eq_of_lt (by omega)
  have h2 : 2000 * configTICK_RATE_HZ % 2 ^ 32 = 2000 * configTICK_RATE_HZ :=
    Nat.mod_eq_of_lt hfit
  simp only [SimpleQueue.Sender_LPT_TickDelay, SimpleQueue.Sender_HPT_TickDelay, pdMS_TO_TICKS,
    h1, h2]
  omega

/-- Witness for C10: a tick rate of 1000 Hz. -/
theorem C10_parameterised_producer_is_faster_witness :
    SimpleQueue.Sender_LPT_TickDelay (pdMS_TO_TICKS 1000)
      < SimpleQueue.Sender_HPT_TickDelay (pdMS_TO_TICKS 1000) :=
  (C10_parameterised_producer_is_faster 1000 (by decide) (by decide)).2.2.2.2.1

namespace CountingSemaphore

/-- A worker whose take has returned, with the cursor inside the pool, ends
its step by calling `vTaskDelay` with its own delay and goes to sleep. -/
theorem step_holding_delay (w : Worker) (s : State) (hw : w ∉ s.CountingSem.waiters)
    (hp : s.phase w = Phase.holding) (h0 : 0 ≤ s.indx) (h3 : s.indx < 3) :
    (step s w).log.getLast? = some (Call.vTaskDelay (taskDelay w))
    ∧ (step s w).phase w = Phase.sleeping := by
  obtain ⟨v, s1, hr, _⟩ := workerRead_spec w s h0 h3
  cases w <;> simp only [workerRead] at hr <;>
    simp [step, hw, HPT_TASK, MPT_TASK, LPT_TASK, VLPT_TASK, hp, hr, State.emit,
      State.setPhase, taskDelay]

/-- C11, as stated, fails: `HPT_TASK` is created with priority 3 and
`MPT_TASK` with priority 2, and both sleep 3000 ticks after their read, as the
last call of each in the start-up run shows. -/
theorem C11_counterexample :
    Worker.priority Worker.MPT < Worker.priority Worker.HPT
    ∧ taskDelay Worker.HPT = 3000
    ∧ taskDelay Worker.MPT = 3000
    ∧ ¬ (taskDelay Worker.MPT < taskDelay Worker.HPT)
    ∧ (startupUpTo [Worker.HPT]).log.getLast? = some (Call.vTaskDelay 3000)
    ∧ (startupUpTo [Worker.HPT, Worker.MPT]).log.getLast? = some (Call.vTaskDelay 3000) := by
  refine ⟨?_, ?_, ?_, ?_, ?_, ?_⟩ <;> decide

/-- C11, amended: of two workers the one created with the higher priority
sleeps at least as long as the other, and strictly longer for every pair
except `HPT_TASK` and `MPT_TASK`, which sleep the same 3000 ticks; the delay
is the argument of the `vTaskDelay` call that ends the worker's step after its
read. -/
theorem C11_sleep_weakly_increasing (w1 w2 : Worker) (s : State)
    (hprio : w2.priority < w1.priority) (hw : w1 ∉ s.CountingSem.waiters)
    (hp : s.phase w1 = Phase.holding) (h0 : 0 ≤ s.indx) (h3 : s.indx < 3) :
    taskDelay w2 ≤ taskDelay w1
    ∧ (taskDelay w2 < taskDelay w1 ↔ ¬ (w1 = Worker.HPT ∧ w2 = Worker.MPT))
    ∧ (step s w1).log.getLast? = some (Call.vTaskDelay (taskDelay w1)) := by
  refine ⟨?_, ?_, (step_holding_delay w1 s hw hp h0 h3).1⟩
  · cases w1 <;> cases w2 <;> simp_all [Worker.priority, taskDelay]
  · cases w1 <;> cases w2 <;> simp_all [Worker.priority, taskDelay]

/-- Witness for C11: `LPT_TASK` against `VLPT_TASK`, with `LPT_TASK` just past
its take in the start state. -/
theorem C11_sleep_weakly_increasing_witness :
    taskDelay Worker.VLPT ≤ taskDelay Worker.LPT
    ∧ (taskDelay Worker.VLPT < taskDelay Worker.LPT
        ↔ ¬ (Worker.LPT = Worker.HPT ∧ Worker.VLPT = Worker.MPT))
    ∧ (step (start.setPhase Worker.LPT Phase.holding) Worker.LPT).log.getLast?
        = some (Call.vTaskDelay (taskDelay Worker.LPT)) :=
  C11_sleep_weakly_increasing Worker.LPT Worker.VLPT
    (start.setPhase Worker.LPT Phase.holding)
    (by decide) (by decide) (by decide) (by decide) (by decide)

/-- C12 fails on the code: for each of the three pool slots `itoa` stores the
three digits of the value and a NUL, four bytes, into the three-byte
`sresource`; the sibling buffer `ssemcount` does hold the one digit and the
NUL of every permit count from 0 to 3. -/
theorem C12_sresource_too_small :
    ([0, 1, 2] : List Int).map (fun i => (readResource i).map (fun v => bytesWritten (itoa v)))
      = [some 4, some 4, some 4]
    ∧ sresource_size = 3
    ∧ (∀ v ∈ resource, ¬ bytesWritten (itoa v) ≤ sresource_size)
    ∧ (∀ c ∈ ([0, 1, 2, 3] : List Int), bytesWritten (itoa c) ≤ ssemcount_size) := by
  refine ⟨?_, ?_, ?_, ?_⟩ <;> decide

end CountingSemaphore

namespace SimpleQueue

/-- C13 fails on the code: the line formatted for 222 and for 111 takes 76
bytes with its NUL and fits the 80-byte `str`, but the line for the value the
interrupt handler inserts, 123456789, takes 82 bytes.  The run that gets
there: the trigger byte arrives on the empty channel and `Receiver_Task`
receives and reports the value, a text of 81 characters. -/
theorem C13_receiver_line_too_long :
    bytesWritten (Receiver_line Sender_HPT_value) = 76
    ∧ bytesWritten (Receiver_line (Sender_LPT_value Sender_LPT_argument)) = 76
    ∧ bytesWritten (Receiver_line ISR_value) = 82
    ∧ Receiver_str_size = 80
    ∧ ¬ (bytesWritten (Receiver_line ISR_value) ≤ Receiver_str_size)
    ∧ (step id
          (step id
            (receiveByte (initial { capacity := 5, items := [], receivers := [], senders := [] })
              triggerByte 0)
            Task.Receiver)
          Task.Receiver).log
        = [Call.HAL_UART_Receive_IT 1, Call.xQueueSendToFrontFromISR ISR_value,
            Call.HAL_UART_Transmit "\n\nSent from ISR\n\n" 17 500,
            Call.portYIELD_FROM_ISR false,
            Call.xQueueReceive portMAX_DELAY,
            Call.HAL_UART_Transmit (Receiver_line ISR_value) 81 HAL_MAX_DELAY,
            Call.vTaskDelay 500] := by
  refine ⟨?_, ?_, ?_, ?_, ?_, ?_⟩ <;> decide

end SimpleQueue
